import Mathlib

/-!
Verification of the synchronization and reconciliation subsystem of the
`orchestra` music-library manager (Rust sources under `src-tauri`).

The Rust code is shallowly embedded: maps built from `HashMap` iteration are
modelled as association lists (`List (String × α)`) together with an explicit
key list; machine integers `u64` / `usize` become `Nat`, `i64` becomes `Int`;
fallible operations return `Except`.  Each definition mirrors one function of
the source; theorems state the specification's claims about them.
-/

set_option maxRecDepth 10000

namespace Orchestra

/-- `DiffAction` from `orchestra-core/src/models/diff.rs`. -/
inductive DiffAction where
  | Add
  | Remove
  | Update
  | Unchanged
  | Conflict
deriving DecidableEq, Repr

/-- `DiffDirection` from `orchestra-core/src/models/diff.rs`. -/
inductive DiffDirection where
  | SourceToTarget
  | TargetToSource
  | Both
deriving DecidableEq, Repr

/-- `ConflictType` from `orchestra-core/src/models/conflict.rs`. -/
inductive ConflictType where
  | BothModified
  | DeletedAndModified
  | FirstSyncDiffers
deriving DecidableEq, Repr

/-- `DiffEntry` from `orchestra-core/src/models/diff.rs`. -/
structure DiffEntry where
  relative_path : String
  action : DiffAction
  direction : DiffDirection
  source_size : Option Nat
  target_size : Option Nat
  source_hash : Option String
  target_hash : Option String
  source_modified : Option Int
  target_modified : Option Int
deriving DecidableEq, Repr

/-- `DiffResult` from `orchestra-core/src/models/diff.rs`. -/
structure DiffResult where
  profile_id : String
  entries : List DiffEntry
  total_add : Nat
  total_remove : Nat
  total_update : Nat
  total_conflict : Nat
  total_unchanged : Nat
  bytes_to_transfer : Nat
deriving DecidableEq, Repr

/-- `Conflict` from `orchestra-core/src/models/conflict.rs`. -/
structure Conflict where
  relative_path : String
  conflict_type : ConflictType
  source_hash : Option String
  target_hash : Option String
  source_modified : Option Int
  target_modified : Option Int
  source_size : Option Nat
  target_size : Option Nat
deriving DecidableEq, Repr

/-- `FileBaseline` from `orchestra-core/src/db/sync_state_repo.rs`. -/
structure FileBaseline where
  relative_path : String
  source_hash : Option String
  target_hash : Option String
  source_modified : Option Int
  target_modified : Option Int
  source_size : Option Nat
  target_size : Option Nat
deriving DecidableEq, Repr

/-- `FileState` from `src/sync/two_way.rs` (hash, mtime, size of one file). -/
structure FileState where
  hash : String
  modified : Int
  size : Nat
deriving DecidableEq, Repr

/-! ## Entry ordering

Both diff functions end with
`entries.sort_by(|a, b| a.relative_path.cmp(&b.relative_path))`;
`sortByPath` is a stable insertion sort with the same ordering key. -/

/-- Lexicographic order on character lists (Rust's `String::cmp` is
lexicographic on the underlying bytes). -/
def pathLe : List Char → List Char → Bool
  | [], _ => true
  | _ :: _, [] => false
  | a :: as, b :: bs => if a = b then pathLe as bs else decide (a < b)

/-- Insert a `DiffEntry` into a list sorted by `relative_path`. -/
def insertByPath (e : DiffEntry) : List DiffEntry → List DiffEntry
  | [] => [e]
  | x :: xs =>
    if pathLe e.relative_path.toList x.relative_path.toList then e :: x :: xs
    else x :: insertByPath e xs

/-- Sort diff entries by `relative_path` (the Rust `sort_by` at the end of
each diff computation). -/
def sortByPath (l : List DiffEntry) : List DiffEntry :=
  l.foldr insertByPath []

/-! ## Two-way diff (`src/sync/two_way.rs`, `compute_two_way_diff`)

The loop body of `compute_two_way_diff` classifies one relative path from the
3-tuple of optional observations `(src, tgt, baseline)`.  `twoWayKey` mirrors
that `match` exactly, returning the `(action, direction)` pair, the `Conflict`
record pushed (if any), and the number of bytes added to `bytes_to_transfer`.
The `(None, None, None)` case is `unreachable!` in Rust; here it returns
`Unchanged/Both` with no conflict, and every theorem about it carries the
reachability hypothesis. -/

/-- Rust `b.source_hash.as_deref() != Some(&s.hash)`. -/
def hashChanged (baselineHash : Option String) (live : String) : Bool :=
  baselineHash ≠ some live

/-- Loop body of `compute_two_way_diff`: classify one path. -/
def twoWayKey (rel : String) (src tgt : Option FileState)
    (baseline : Option FileBaseline) :
    (DiffAction × DiffDirection) × Option Conflict × Nat :=
  match src, tgt, baseline with
  | some s, some t, some b =>
    let src_changed := hashChanged b.source_hash s.hash
    let tgt_changed := hashChanged b.target_hash t.hash
    match src_changed, tgt_changed with
    | false, false => ((.Unchanged, .Both), none, 0)
    | true, false => ((.Update, .SourceToTarget), none, s.size)
    | false, true => ((.Update, .TargetToSource), none, t.size)
    | true, true =>
      if s.hash = t.hash then ((.Unchanged, .Both), none, 0)
      else
        ((.Conflict, .Both),
          some { relative_path := rel
                 conflict_type := .BothModified
                 source_hash := some s.hash
                 target_hash := some t.hash
                 source_modified := some s.modified
                 target_modified := some t.modified
                 source_size := some s.size
                 target_size := some t.size }, 0)
  | some s, some t, none =>
    if s.hash = t.hash then ((.Unchanged, .Both), none, 0)
    else
      ((.Conflict, .Both),
        some { relative_path := rel
               conflict_type := .FirstSyncDiffers
               source_hash := some s.hash
               target_hash := some t.hash
               source_modified := some s.modified
               target_modified := some t.modified
               source_size := some s.size
               target_size := some t.size }, 0)
  | some s, none, none => ((.Add, .SourceToTarget), none, s.size)
  | none, some t, none => ((.Add, .TargetToSource), none, t.size)
  | some s, none, some b =>
    if hashChanged b.source_hash s.hash then
      ((.Conflict, .Both),
        some { relative_path := rel
               conflict_type := .DeletedAndModified
               source_hash := some s.hash
               target_hash := none
               source_modified := some s.modified
               target_modified := none
               source_size := some s.size
               target_size := none }, 0)
    else ((.Remove, .SourceToTarget), none, 0)
  | none, some t, some b =>
    if hashChanged b.target_hash t.hash then
      ((.Conflict, .Both),
        some { relative_path := rel
               conflict_type := .DeletedAndModified
               source_hash := none
               target_hash := some t.hash
               source_modified := none
               target_modified := some t.modified
               source_size := none
               target_size := some t.size }, 0)
    else ((.Remove, .TargetToSource), none, 0)
  | none, none, some _ => ((.Unchanged, .Both), none, 0)
  | none, none, none => ((.Unchanged, .Both), none, 0)

/-- The `DiffEntry` pushed by the two-way loop for one path. -/
def twoWayEntry (rel : String) (src tgt : Option FileState)
    (action : DiffAction) (direction : DiffDirection) : DiffEntry :=
  { relative_path := rel
    action := action
    direction := direction
    source_size := src.map (·.size)
    target_size := tgt.map (·.size)
    source_hash := src.map (·.hash)
    target_hash := tgt.map (·.hash)
    source_modified := src.map (·.modified)
    target_modified := tgt.map (·.modified) }

/-- One iteration of the `compute_two_way_diff` loop.  The per-branch
counter increments of the source are recovered from the action of the
generated entry, which the source sets in the same branch. -/
def twoWayStep (sourceFiles targetFiles : List (String × FileState))
    (baselines : List (String × FileBaseline))
    (acc : DiffResult × List Conflict) (rel : String) :
    DiffResult × List Conflict :=
  let src := sourceFiles.lookup rel
  let tgt := targetFiles.lookup rel
  let k := twoWayKey rel src tgt (baselines.lookup rel)
  let action := k.1.1
  let d := acc.1
  ({ d with
      entries := d.entries ++ [twoWayEntry rel src tgt action k.1.2]
      total_add := d.total_add + (if action = .Add then 1 else 0)
      total_remove := d.total_remove + (if action = .Remove then 1 else 0)
      total_update := d.total_update + (if action = .Update then 1 else 0)
      total_conflict := d.total_conflict + (if action = .Conflict then 1 else 0)
      total_unchanged := d.total_unchanged + (if action = .Unchanged then 1 else 0)
      bytes_to_transfer := d.bytes_to_transfer + k.2.2 },
    acc.2 ++ k.2.1.toList)

/-- `compute_two_way_diff`, folded over an explicit key list (the Rust
`HashSet` union of the three key sets, in iteration order). -/
def computeTwoWayDiff (profile_id : String) (keys : List String)
    (sourceFiles targetFiles : List (String × FileState))
    (baselines : List (String × FileBaseline)) : DiffResult × List Conflict :=
  let r := keys.foldl (twoWayStep sourceFiles targetFiles baselines)
    ({ profile_id := profile_id, entries := [], total_add := 0,
       total_remove := 0, total_update := 0, total_conflict := 0,
       total_unchanged := 0, bytes_to_transfer := 0 }, [])
  ({ r.1 with entries := sortByPath r.1.entries }, r.2)

/-! ## One-way diff (`src/sync/diff.rs`, `compute_one_way_diff`)

`FileInfo` carries the lazily-computed hash cache (`hash: Option<String>`);
`collect_files` always initialises it to `None`.  Hashing the file at
`root.join(rel)` is abstracted by a function `String → String` from the
relative path (one such function per root). -/

/-- `FileInfo` from `src/sync/diff.rs`. -/
structure FileInfo where
  size : Nat
  modified : Int
  hash : Option String
deriving DecidableEq, Repr

/-- `compute_hash_if_needed` from `src/sync/diff.rs`: return the memoized
hash, or compute it via `hashFn` and store it. -/
def computeHashIfNeeded (hashFn : String → String) (rel : String)
    (info : FileInfo) : String × FileInfo :=
  match info.hash with
  | some h => (h, info)
  | none =>
    let h := hashFn rel
    (h, { info with hash := some h })

/-- Loop body of `compute_one_way_diff` for one relative path: the entry
pushed and the bytes added to `bytes_to_transfer`.  `(none, none)` is the
Rust `unreachable!()` arm. -/
def oneWayKey (hashS hashT : String → String) (rel : String) :
    Option FileInfo → Option FileInfo → Option (DiffEntry × Nat)
  | some src, none =>
    let (hash, _) := computeHashIfNeeded hashS rel src
    some
      ({ relative_path := rel, action := .Add, direction := .SourceToTarget
         source_size := some src.size, target_size := none
         source_hash := some hash, target_hash := none
         source_modified := some src.modified, target_modified := none },
        src.size)
  | none, some tgt =>
    some
      ({ relative_path := rel, action := .Remove, direction := .SourceToTarget
         source_size := none, target_size := some tgt.size
         source_hash := none, target_hash := none
         source_modified := none, target_modified := some tgt.modified }, 0)
  | some src, some tgt =>
    if src.size = tgt.size ∧ src.modified = tgt.modified then
      some
        ({ relative_path := rel, action := .Unchanged
           direction := .SourceToTarget
           source_size := some src.size, target_size := some tgt.size
           source_hash := none, target_hash := none
           source_modified := some src.modified
           target_modified := some tgt.modified }, 0)
    else
      let (src_hash, _) := computeHashIfNeeded hashS rel src
      let (tgt_hash, _) := computeHashIfNeeded hashT rel tgt
      if src_hash = tgt_hash then
        some
          ({ relative_path := rel, action := .Unchanged
             direction := .SourceToTarget
             source_size := some src.size, target_size := some tgt.size
             source_hash := some src_hash, target_hash := some tgt_hash
             source_modified := some src.modified
             target_modified := some tgt.modified }, 0)
      else
        some
          ({ relative_path := rel, action := .Update
             direction := .SourceToTarget
             source_size := some src.size, target_size := some tgt.size
             source_hash := some src_hash, target_hash := some tgt_hash
             source_modified := some src.modified
             target_modified := some tgt.modified }, src.size)
  | none, none => none

/-- One iteration of the `compute_one_way_diff` loop.  Each path of the key
union appears exactly once in `keys`, so the per-`FileInfo` hash memo
written back into the maps by `get_mut` is never read again; the updated
maps are therefore not threaded through the fold. -/
def oneWayStep (sourceFiles targetFiles : List (String × FileInfo))
    (hashS hashT : String → String) (d : DiffResult) (rel : String) :
    DiffResult :=
  match oneWayKey hashS hashT rel (sourceFiles.lookup rel)
      (targetFiles.lookup rel) with
  | none => d
  | some (e, bytes) =>
    { d with
        entries := d.entries ++ [e]
        total_add := d.total_add + (if e.action = .Add then 1 else 0)
        total_remove := d.total_remove + (if e.action = .Remove then 1 else 0)
        total_update := d.total_update + (if e.action = .Update then 1 else 0)
        total_unchanged :=
          d.total_unchanged + (if e.action = .Unchanged then 1 else 0)
        bytes_to_transfer := d.bytes_to_transfer + bytes }

/-- `compute_one_way_diff`, folded over an explicit key list (the Rust
`HashSet` union of the two key sets, in iteration order). -/
def computeOneWayDiff (profile_id : String) (keys : List String)
    (sourceFiles targetFiles : List (String × FileInfo))
    (hashS hashT : String → String) : DiffResult :=
  let d := keys.foldl (oneWayStep sourceFiles targetFiles hashS hashT)
    { profile_id := profile_id, entries := [], total_add := 0,
      total_remove := 0, total_update := 0, total_conflict := 0,
      total_unchanged := 0, bytes_to_transfer := 0 }
  { d with entries := sortByPath d.entries }

/-! ## Path helpers (`std::path::Path` semantics used by the code)

`Path::extension` returns the portion of the file name after the final `.`,
unless the name has no `.`, or its only `.` is the leading character.
`Path::with_extension` replaces that portion (`one_way.rs` builds the sidecar
temp path with `dst.with_extension("tmp_sync")`). -/

/-- Split a character list at its last `.`: `some (before, after)`. -/
def lastDotSplit : List Char → Option (List Char × List Char)
  | [] => none
  | c :: rest =>
    match lastDotSplit rest with
    | some (b, a) => some (c :: b, a)
    | none => if c = '.' then some ([], rest) else none

/-- `Path::extension` on a file name. -/
def rustExtension (name : String) : Option String :=
  match lastDotSplit name.toList with
  | some (before, after) =>
    if before = [] then none else some (String.mk after)
  | none => none

/-- `Path::file_stem` on a file name. -/
def rustFileStem (name : String) : String :=
  match lastDotSplit name.toList with
  | some (before, _) => if before = [] then name else String.mk before
  | none => name

/-- `Path::with_extension` on a file name (new extension nonempty). -/
def withExtension (name ext : String) : String :=
  rustFileStem name ++ "." ++ ext

/-- `AUDIO_EXTENSIONS` from `src/models/track.rs`. -/
def audioExtensions : List String :=
  ["flac", "mp3", "m4a", "aac", "wav", "alac", "ogg", "opus", "wma"]

/-- `is_audio_file` from `src/models/track.rs`, on the file name: the
extension, lowercased, must be one of `AUDIO_EXTENSIONS`. -/
def isAudioFile (name : String) : Bool :=
  match rustExtension name with
  | some e => audioExtensions.contains (String.mk (e.toList.map Char.toLower))
  | none => false

/-! ## Filesystem walks (`diff.rs::collect_files`,
`two_way.rs::collect_file_states`, `device/sync.rs::collect_device_files`,
`scanner/walker.rs::walk_directory`)

A walk is modelled as the stream of items `walkdir` would yield without any
`filter_entry`: each item is either a walk error or a `WalkEntry` carrying
the entry's full path, root-relative path, leaf name, the names of the
directories strictly between the root and the entry, and the (fallible)
results of `fs::metadata`, `Metadata::modified` and `hash_file` on it.
Exclusion-pattern matching (`compiled.iter().any(|p| p.matches(rel))`) is
abstracted as a predicate on the relative path. -/

deriving instance DecidableEq for Except

/-- Metadata of one entry: `len()` plus the fallible `modified()` result
(already reduced mod `duration_since(UNIX_EPOCH).unwrap_or_default()`). -/
structure WalkMeta where
  size : Nat
  modifiedRes : Except String Int
deriving DecidableEq, Repr

/-- One directory entry yielded by `walkdir`. -/
structure WalkEntry where
  path : String
  rel : String
  fileName : String
  ancestors : List String
  isFile : Bool
  isDir : Bool
  meta : Except String WalkMeta
  hashResult : Except String String
deriving DecidableEq, Repr

/-- `is_hidden` from `src/device/sync.rs`: leaf name begins with `.`
(`name.to_string_lossy().starts_with('.')`). -/
def isHidden (name : String) : Bool :=
  match name.toList with
  | '.' :: _ => true
  | _ => false

/-- Whether `walkdir`'s `filter_entry` in `collect_device_files` suppresses
this entry: some ancestor directory is hidden, or the entry is itself a
hidden directory (pruning a directory skips its whole subtree). -/
def devicePruned (e : WalkEntry) : Bool :=
  e.ancestors.any isHidden || (e.isDir && isHidden e.fileName)

/-- Insert-or-replace into an association list (`HashMap::insert`). -/
def upsert (m : List (String × α)) (k : String) (v : α) : List (String × α) :=
  (k, v) :: m.filter (fun p => p.1 ≠ k)

/-- `collect_files` from `src/sync/diff.rs`.  A walk error or a metadata
error on any entry aborts the whole collection (`let entry = entry?;`,
`std::fs::metadata(..)?`, `meta.modified()?`). -/
def collectFiles (exclude : String → Bool) :
    List (Except String WalkEntry) → Except String (List (String × FileInfo)) :=
  go []
where
  go (acc : List (String × FileInfo)) :
      List (Except String WalkEntry) → Except String (List (String × FileInfo))
    | [] => .ok acc
    | .error msg :: _ => .error msg
    | .ok e :: rest =>
      if !(e.isFile && isAudioFile e.fileName) then go acc rest
      else if exclude e.rel then go acc rest
      else
        match e.meta with
        | .error msg => .error msg
        | .ok m =>
          match m.modifiedRes with
          | .error msg => .error msg
          | .ok modified =>
            go (upsert acc e.rel ⟨m.size, modified, none⟩) rest

/-- `collect_file_states` from `src/sync/two_way.rs`: like `collect_files`
but hashes every file up front (`hasher::hash_file(entry.path())?`). -/
def collectFileStates (exclude : String → Bool) :
    List (Except String WalkEntry) → Except String (List (String × FileState)) :=
  go []
where
  go (acc : List (String × FileState)) :
      List (Except String WalkEntry) → Except String (List (String × FileState))
    | [] => .ok acc
    | .error msg :: _ => .error msg
    | .ok e :: rest =>
      if !(e.isFile && isAudioFile e.fileName) then go acc rest
      else if exclude e.rel then go acc rest
      else
        match e.meta with
        | .error msg => .error msg
        | .ok m =>
          match m.modifiedRes with
          | .error msg => .error msg
          | .ok modified =>
            match e.hashResult with
            | .error msg => .error msg
            | .ok hash => go (upsert acc e.rel ⟨hash, modified, m.size⟩) rest

/-- Device-side file record (`FileInfo` in `src/device/sync.rs`). -/
structure DeviceFileInfo where
  size : Nat
  modified : Int
deriving DecidableEq, Repr

/-- `collect_device_files` from `src/device/sync.rs`: hidden directories are
pruned by `filter_entry`, walk errors and stat errors are skipped, and a
`modified()` failure falls back to `0`.  The Rust function returns
`Ok(files)` unconditionally; the `Ok` wrapper is omitted here. -/
def collectDeviceFiles :
    List (Except String WalkEntry) → List (String × DeviceFileInfo) :=
  go []
where
  go (acc : List (String × DeviceFileInfo)) :
      List (Except String WalkEntry) → List (String × DeviceFileInfo)
    | [] => acc
    | .error _ :: rest => go acc rest
    | .ok e :: rest =>
      if devicePruned e then go acc rest
      else if !(e.isFile && isAudioFile e.fileName) then go acc rest
      else
        match e.meta with
        | .error _ => go acc rest
        | .ok m =>
          let modified := (m.modifiedRes.toOption).getD 0
          go (upsert acc e.rel ⟨m.size, modified⟩) rest

/-- `walk_directory` from `src/scanner/walker.rs`: walk errors are dropped
by `filter_map(|e| e.ok())`; files are kept when they are audio files not
matching an exclusion pattern.  No hidden-directory filtering is applied. -/
def walkDirectory (exclude : String → Bool)
    (items : List (Except String WalkEntry)) : List String :=
  ((items.filterMap Except.toOption).filter
    (fun e => e.isFile && isAudioFile e.fileName && !exclude e.rel)).map
    (·.path)

/-! ## Executors (`src/sync/one_way.rs`, `src/sync/two_way.rs`,
`src/device/sync.rs`)

Each executor is a loop over the actionable entries of a diff.  The
filesystem outcome of one entry's action is abstracted as an oracle
(`Except String Unit`); the shared `AtomicBool` cancellation flag is
abstracted as the sequence of values the `load` at the top of iteration `i`
observes (`flag : Nat → Bool`, indexed by `files_completed`).  Every run
returns the progress events sent, the relative paths on which a filesystem
action was attempted, and the Rust return value. -/

/-- `ProgressEvent` variants used by the executors
(`src/models/progress.rs`). -/
inductive ProgressEvent where
  | syncStarted (total_files total_bytes : Nat)
  | syncProgress (files_completed total_files bytes_completed total_bytes : Nat)
      (current_file : String)
  | syncError (file : String) (error : String)
  | syncComplete (files_synced : Nat)
deriving DecidableEq, Repr

/-- The error cases of `AppError` (`src/error.rs`) the executors produce. -/
inductive AppError where
  | syncCancelled
  | deviceDisconnected (path : String)
  | ioError (msg : String)
deriving DecidableEq, Repr

/-- Result of one executor run: events sent, paths acted on, return value. -/
structure ExecRun (α : Type) where
  events : List ProgressEvent
  acts : List String
  result : Except AppError α
deriving DecidableEq, Repr

/-- `matches!(e.action, Add | Update | Remove)`: the actionable filter of
`execute_one_way_sync` and `execute_device_sync`. -/
def isActionable (e : DiffEntry) : Bool :=
  match e.action with
  | .Add | .Update | .Remove => true
  | _ => false

/-- `e.source_size.unwrap_or(0)`, the per-entry byte weight of the one-way
and device executors. -/
def entryBytes (e : DiffEntry) : Nat :=
  e.source_size.getD 0

/-- Loop of `execute_one_way_sync` over the actionable entries. -/
def execOneWayLoop (fsOp : DiffEntry → Except String Unit)
    (flag : Nat → Bool) (total_files total_bytes : Nat) :
    List DiffEntry → Nat → Nat → ExecRun Nat
  | [], files_completed, _ =>
    { events := [.syncComplete files_completed], acts := []
      result := .ok files_completed }
  | e :: rest, fc, bc =>
    if flag fc then { events := [], acts := [], result := .error .syncCancelled }
    else
      let errEvents : List ProgressEvent :=
        match fsOp e with
        | .error msg => [.syncError e.relative_path msg]
        | .ok _ => []
      let r := execOneWayLoop fsOp flag total_files total_bytes rest (fc + 1)
        (bc + entryBytes e)
      { events :=
          .syncProgress fc total_files bc total_bytes e.relative_path ::
            errEvents ++ r.events
        acts := e.relative_path :: r.acts
        result := r.result }

/-- `execute_one_way_sync` from `src/sync/one_way.rs`.  `fsOp e` stands for
`copy_file_safe` (Add/Update) or `remove_file_safe` (Remove) on `e`. -/
def executeOneWaySync (entries : List DiffEntry)
    (fsOp : DiffEntry → Except String Unit) (flag : Nat → Bool) : ExecRun Nat :=
  let actionable := entries.filter isActionable
  let total_files := actionable.length
  let total_bytes := (actionable.map entryBytes).sum
  let r := execOneWayLoop fsOp flag total_files total_bytes actionable 0 0
  { r with events := .syncStarted total_files total_bytes :: r.events }

/-- `CachedFileHash` from `src/db/device_repo.rs`. -/
structure CachedFileHash where
  relative_path : String
  hash : String
  file_size : Nat
  modified_at : Int
deriving DecidableEq, Repr

/-- Oracles for the filesystem operations of `execute_device_sync`. -/
structure DeviceFsOracle where
  /-- Outcome of `copy_file_safe(library_root/rel, device_root/rel)`. -/
  copyOp : String → Except String Unit
  /-- Outcome of `std::fs::remove_file(device_root/rel)`. -/
  removeOp : String → Except String Unit
  /-- `device_root.join(rel).exists()`. -/
  existsOnDevice : String → Bool
  /-- `fs::metadata` of the freshly written target: `some (len, mtime)` or
  `none` when the re-stat fails. -/
  metaAfter : String → Option (Nat × Int)
  /-- `device_root.exists()` as observed at iteration `i`. -/
  connected : Nat → Bool

/-- Loop of `execute_device_sync`.  Note the Remove arm propagates a
`remove_file` failure with `?`, aborting the whole run, unlike the
Add/Update arm whose failure only produces a `SyncError` event. -/
def execDeviceLoop (o : DeviceFsOracle) (flag : Nat → Bool)
    (deviceRoot : String) (total_files total_bytes : Nat) :
    List DiffEntry → Nat → Nat → List CachedFileHash →
      ExecRun (Nat × List CachedFileHash)
  | [], files_completed, _, cache =>
    { events := [.syncComplete files_completed], acts := []
      result := .ok (files_completed, cache) }
  | e :: rest, fc, bc, cache =>
    if flag fc then { events := [], acts := [], result := .error .syncCancelled }
    else if !o.connected fc then
      { events := [], acts := []
        result := .error (.deviceDisconnected deviceRoot) }
    else
      let progress : ProgressEvent :=
        .syncProgress fc total_files bc total_bytes e.relative_path
      match e.action with
      | .Add | .Update =>
        let copyResult := o.copyOp e.relative_path
        let cache' :=
          match copyResult with
          | .ok _ =>
            let hash := e.source_hash.getD ""
            let (size, mtime) :=
              (o.metaAfter e.relative_path).getD
                (e.source_size.getD 0, e.source_modified.getD 0)
            (cache.filter (fun c => c.relative_path ≠ e.relative_path)) ++
              [{ relative_path := e.relative_path, hash := hash,
                 file_size := size, modified_at := mtime }]
          | .error _ => cache
        let errEvents : List ProgressEvent :=
          match copyResult with
          | .error msg => [.syncError e.relative_path msg]
          | .ok _ => []
        let r := execDeviceLoop o flag deviceRoot total_files total_bytes rest
          (fc + 1) (bc + entryBytes e) cache'
        { events := progress :: errEvents ++ r.events
          acts := e.relative_path :: r.acts
          result := r.result }
      | .Remove =>
        if o.existsOnDevice e.relative_path then
          match o.removeOp e.relative_path with
          | .error msg =>
            -- `std::fs::remove_file(&tgt_path)?` — the error escapes the loop
            { events := [progress], acts := [e.relative_path]
              result := .error (.ioError msg) }
          | .ok _ =>
            let cache' :=
              cache.filter (fun c => c.relative_path ≠ e.relative_path)
            let r := execDeviceLoop o flag deviceRoot total_files total_bytes
              rest (fc + 1) (bc + entryBytes e) cache'
            { events := progress :: r.events
              acts := e.relative_path :: r.acts
              result := r.result }
        else
          let cache' :=
            cache.filter (fun c => c.relative_path ≠ e.relative_path)
          let r := execDeviceLoop o flag deviceRoot total_files total_bytes
            rest (fc + 1) (bc + entryBytes e) cache'
          { events := progress :: r.events
            acts := e.relative_path :: r.acts
            result := r.result }
      | _ =>
        let r := execDeviceLoop o flag deviceRoot total_files total_bytes rest
          (fc + 1) (bc + entryBytes e) cache
        { events := progress :: r.events
          acts := e.relative_path :: r.acts
          result := r.result }

/-- `execute_device_sync` from `src/device/sync.rs`. -/
def executeDeviceSync (entries : List DiffEntry) (o : DeviceFsOracle)
    (flag : Nat → Bool) (deviceRoot : String)
    (pre_cache : List CachedFileHash) : ExecRun (Nat × List CachedFileHash) :=
  let actionable := entries.filter isActionable
  let total_files := actionable.length
  let total_bytes := (actionable.map entryBytes).sum
  let r := execDeviceLoop o flag deviceRoot total_files total_bytes actionable
    0 0 pre_cache
  { r with events := .syncStarted total_files total_bytes :: r.events }

/-- `Resolution` from `orchestra-core/src/models/conflict.rs`. -/
inductive Resolution where
  | KeepSource
  | KeepTarget
  | KeepBoth
  | Skip
deriving DecidableEq, Repr

/-- The actionable filter of `execute_two_way_sync`:
`!matches!(e.action, Unchanged)`. -/
def isTwoWayActionable (e : DiffEntry) : Bool :=
  e.action ≠ .Unchanged

/-- `e.source_size.or(e.target_size).unwrap_or(0)`: byte weight used by the
two-way executor. -/
def entryBytesTwoWay (e : DiffEntry) : Nat :=
  (e.source_size.or e.target_size).getD 0

/-- Oracles for the per-entry filesystem work of `execute_two_way_sync`:
outcome of `apply_resolution` for a resolved conflict, of `copy_file_safe`
for Add/Update, of `remove_if_exists` for Remove (all of which return
`Result` values that the loop captures). -/
structure TwoWayFsOracle where
  resolveOp : String → Resolution → Except String Unit
  copyOp : String → DiffDirection → Except String Unit
  removeOp : String → DiffDirection → Except String Unit

/-- Loop body dispatch of `execute_two_way_sync`: the `result` value of one
iteration. -/
def twoWayEntryResult (o : TwoWayFsOracle)
    (resolutions : List (String × Resolution)) (e : DiffEntry) :
    Except String Unit :=
  match e.action with
  | .Conflict =>
    match resolutions.lookup e.relative_path with
    | some r => o.resolveOp e.relative_path r
    | none => .ok ()
  | .Add | .Update =>
    match e.direction with
    | .Both => .ok ()
    | d => o.copyOp e.relative_path d
  | .Remove =>
    match e.direction with
    | .Both => .ok ()
    | d => o.removeOp e.relative_path d
  | _ => .ok ()

/-- Loop of `execute_two_way_sync`: every per-entry failure is captured into
`result`, reported as a `SyncError` event, and the loop continues. -/
def execTwoWayLoop (o : TwoWayFsOracle)
    (resolutions : List (String × Resolution)) (flag : Nat → Bool)
    (total_files total_bytes : Nat) :
    List DiffEntry → Nat → Nat → ExecRun Nat
  | [], files_completed, _ =>
    { events := [.syncComplete files_completed], acts := []
      result := .ok files_completed }
  | e :: rest, fc, bc =>
    if flag fc then { events := [], acts := [], result := .error .syncCancelled }
    else
      let errEvents : List ProgressEvent :=
        match twoWayEntryResult o resolutions e with
        | .error msg => [.syncError e.relative_path msg]
        | .ok _ => []
      let r := execTwoWayLoop o resolutions flag total_files total_bytes rest
        (fc + 1) (bc + entryBytesTwoWay e)
      { events :=
          .syncProgress fc total_files bc total_bytes e.relative_path ::
            errEvents ++ r.events
        acts := e.relative_path :: r.acts
        result := r.result }

/-- `execute_two_way_sync` from `src/sync/two_way.rs`. -/
def executeTwoWaySync (entries : List DiffEntry)
    (resolutions : List (String × Resolution)) (o : TwoWayFsOracle)
    (flag : Nat → Bool) : ExecRun Nat :=
  let actionable := entries.filter isTwoWayActionable
  let total_files := actionable.length
  let total_bytes := (actionable.map entryBytesTwoWay).sum
  let r := execTwoWayLoop o resolutions flag total_files total_bytes actionable
    0 0
  { r with events := .syncStarted total_files total_bytes :: r.events }

/-! ## `execute_sync` and `CancelToken`
(`src/commands/sync_cmd.rs`, `src/sync/progress.rs`) -/

/-- `CancelToken` from `src/sync/progress.rs`: a shared boolean with only
`new`, `cancel` and `is_cancelled` operations — nothing ever clears it. -/
structure CancelToken where
  flag : Bool
deriving DecidableEq, Repr

/-- `CancelToken::new`. -/
def CancelToken.new : CancelToken := ⟨false⟩

/-- `CancelToken::cancel` (`store(true)`). -/
def CancelToken.cancel (_ : CancelToken) : CancelToken := ⟨true⟩

/-- `CancelToken::is_cancelled` (`load`). -/
def CancelToken.isCancelled (t : CancelToken) : Bool := t.flag

/-- `execute_sync` from `src/commands/sync_cmd.rs` (one-way profile): run
the executor with the state-managed token's flag — which it does **not**
reset — and, only when the executor returns `Ok`, regenerate and save the
baselines.  The boolean records whether `build_post_sync_baselines` /
`save_baselines` ran. -/
def executeSyncCmd (entries : List DiffEntry)
    (fsOp : DiffEntry → Except String Unit) (flag : Nat → Bool) :
    ExecRun Nat × Bool :=
  let r := executeOneWaySync entries fsOp flag
  match r.result with
  | .error _ => (r, false)
  | .ok _ => (r, true)

/-! ## `copy_file_safe` (`src/sync/one_way.rs`)

The write path is modelled as the trace of filesystem operations the
function issues, in order.  A filesystem state maps paths to contents; a
partially complete `fs::copy` is observable as a sequence of partial writes
to the temp path before the full copy lands, which lets the atomicity claim
quantify over every observable moment. -/

/-- One filesystem operation issued by `copy_file_safe`. -/
inductive FsOp where
  /-- `fs::create_dir_all(dst.parent())`. -/
  | ensureParent (dst : String)
  /-- A partial state of `fs::copy(src, tmp)`: `tmp` holds a proper portion
  of the bytes. -/
  | writeInterim (tmp : String) (portion : String)
  /-- `fs::copy(src, tmp)` completed: `tmp` holds the bytes of `src`. -/
  | copyFull (src tmp : String)
  /-- `File::open(tmp).sync_all()`. -/
  | fsync (tmp : String)
  /-- `fs::rename(tmp, dst)`. -/
  | rename (tmp dst : String)
  /-- `file.set_modified(src mtime)` on `dst` (best-effort). -/
  | setMtimeFromSrc (src dst : String)
deriving DecidableEq, Repr

/-- The sidecar temp path of `copy_file_safe`:
`dst.with_extension("tmp_sync")`. -/
def tmpPath (dst : String) : String :=
  withExtension dst "tmp_sync"

/-- The operation trace of `copy_file_safe(src, dst)`, with the mid-copy
observation points of one `fs::copy` made explicit (`interims` enumerates
the observable partial contents of the temp file, in order). -/
def copyFileSafe (interims : List String) (src dst : String) : List FsOp :=
  FsOp.ensureParent dst ::
    (interims.map (FsOp.writeInterim (tmpPath dst))) ++
    [FsOp.copyFull src (tmpPath dst),
     FsOp.fsync (tmpPath dst),
     FsOp.rename (tmpPath dst) dst,
     FsOp.setMtimeFromSrc src dst]

/-- File contents reachable at each path (directories left implicit). -/
def FsState := String → Option String

/-- Effect of one operation on contents. -/
def applyOp (fs : FsState) : FsOp → FsState
  | .ensureParent _ => fs
  | .writeInterim tmp portion =>
    fun p => if p = tmp then some portion else fs p
  | .copyFull src tmp => fun p => if p = tmp then fs src else fs p
  | .fsync _ => fs
  | .rename tmp dst =>
    fun p => if p = dst then fs tmp else if p = tmp then none else fs p
  | .setMtimeFromSrc _ _ => fs

/-- All states observable while a trace runs (before, between and after the
operations). -/
def traceStates (fs : FsState) : List FsOp → List FsState
  | [] => [fs]
  | op :: rest => fs :: traceStates (applyOp fs op) rest

/-! ## Device diff (`src/device/sync.rs`, `compute_device_diff`) -/

/-- The fields of `Track` (`src/models/track.rs`) read by the device diff. -/
structure Track where
  relative_path : String
  file_path : String
  file_size : Nat
  modified_at : Int
  hash : Option String
deriving DecidableEq, Repr

/-- Loop body of `compute_device_diff` for one relative path: the entry
pushed, the `CachedFileHash` pushed onto the new cache (if any), and the
bytes added to `bytes_to_transfer`.  `hashLibrary` stands for
`hasher::hash_file(track.file_path)` and `hashDevice` for
`hasher::hash_file(device_root.join(rel))`.  `(none, none)` is the Rust
`unreachable!()` arm. -/
def deviceKey (hashLibrary hashDevice : String → String)
    (hashCache : List (String × CachedFileHash)) (rel : String) :
    Option Track → Option DeviceFileInfo →
      Option (DiffEntry × Option CachedFileHash × Nat)
  | some track, none =>
    some
      ({ relative_path := rel, action := .Add, direction := .SourceToTarget
         source_size := some track.file_size, target_size := none
         source_hash := track.hash, target_hash := none
         source_modified := some track.modified_at, target_modified := none },
        none, track.file_size)
  | none, some dev =>
    -- not added to the new cache: the file will be removed
    some
      ({ relative_path := rel, action := .Remove, direction := .SourceToTarget
         source_size := none, target_size := some dev.size
         source_hash := none, target_hash := none
         source_modified := none, target_modified := some dev.modified },
        none, 0)
  | some track, some dev =>
    if track.file_size = dev.size ∧ track.modified_at = dev.modified then
      let cached_hash := (hashCache.lookup rel).map (·.hash)
      some
        ({ relative_path := rel, action := .Unchanged
           direction := .SourceToTarget
           source_size := some track.file_size, target_size := some dev.size
           source_hash := none, target_hash := none
           source_modified := some track.modified_at
           target_modified := some dev.modified },
          some { relative_path := rel, hash := cached_hash.getD "",
                 file_size := dev.size, modified_at := dev.modified }, 0)
    else
      let src_hash :=
        match track.hash with
        | some h => h
        | none => hashLibrary track.file_path
      let tgt_hash :=
        match hashCache.lookup rel with
        | some cached =>
          if cached.file_size = dev.size ∧ cached.modified_at = dev.modified
          then cached.hash
          else hashDevice rel
        | none => hashDevice rel
      let push : CachedFileHash :=
        { relative_path := rel, hash := tgt_hash, file_size := dev.size,
          modified_at := dev.modified }
      if src_hash = tgt_hash then
        some
          ({ relative_path := rel, action := .Unchanged
             direction := .SourceToTarget
             source_size := some track.file_size, target_size := some dev.size
             source_hash := some src_hash, target_hash := some tgt_hash
             source_modified := some track.modified_at
             target_modified := some dev.modified }, some push, 0)
      else
        some
          ({ relative_path := rel, action := .Update
             direction := .SourceToTarget
             source_size := some track.file_size, target_size := some dev.size
             source_hash := some src_hash, target_hash := some tgt_hash
             source_modified := some track.modified_at
             target_modified := some dev.modified }, some push,
            track.file_size)
  | none, none => none

/-- One iteration of the `compute_device_diff` loop. -/
def deviceStep (libraryMap : List (String × Track))
    (deviceFiles : List (String × DeviceFileInfo))
    (hashCache : List (String × CachedFileHash))
    (hashLibrary hashDevice : String → String)
    (acc : DiffResult × List CachedFileHash) (rel : String) :
    DiffResult × List CachedFileHash :=
  match deviceKey hashLibrary hashDevice hashCache rel
      (libraryMap.lookup rel) (deviceFiles.lookup rel) with
  | none => acc
  | some (e, push, bytes) =>
    let d := acc.1
    ({ d with
        entries := d.entries ++ [e]
        total_add := d.total_add + (if e.action = .Add then 1 else 0)
        total_remove := d.total_remove + (if e.action = .Remove then 1 else 0)
        total_update := d.total_update + (if e.action = .Update then 1 else 0)
        total_unchanged :=
          d.total_unchanged + (if e.action = .Unchanged then 1 else 0)
        bytes_to_transfer := d.bytes_to_transfer + bytes },
      acc.2 ++ push.toList)

/-- `compute_device_diff`, folded over an explicit key list (the Rust
`HashSet` union of library and device key sets, in iteration order). -/
def computeDeviceDiff (device_id : String) (keys : List String)
    (libraryMap : List (String × Track))
    (deviceFiles : List (String × DeviceFileInfo))
    (hashCache : List (String × CachedFileHash))
    (hashLibrary hashDevice : String → String) :
    DiffResult × List CachedFileHash :=
  let r := keys.foldl
    (deviceStep libraryMap deviceFiles hashCache hashLibrary hashDevice)
    ({ profile_id := device_id, entries := [], total_add := 0,
       total_remove := 0, total_update := 0, total_conflict := 0,
       total_unchanged := 0, bytes_to_transfer := 0 }, [])
  ({ r.1 with entries := sortByPath r.1.entries }, r.2)

/-! ## Drive-level model of one full one-way sync (for convergence)

To relate a diff run, the execution of its entries, and a second diff run,
the filesystem under one root is modelled as an association list from
relative path to live file (byte content and mtime).  `collect_files` on
such a drive yields `FileInfo` records (`len` of the content, the mtime, no
hash yet), and hashing a path under a root applies an arbitrary content-hash
function to the file's bytes.  Executing an Add/Update runs
`copy_file_safe`, which transfers the bytes and then sets the destination
mtime to the source mtime; a Remove deletes the target file. -/

/-- A live file: its bytes and its modification time. -/
structure LiveFile where
  content : String
  mtime : Int
deriving DecidableEq, Repr

/-- A directory tree flattened to relative paths. -/
abbrev Drive := List (String × LiveFile)

/-- What `collect_files` records about one live file. -/
def infoOf (f : LiveFile) : FileInfo :=
  { size := f.content.length, modified := f.mtime, hash := none }

/-- `collect_files` on a drive (error-free walk). -/
def collectInfos (d : Drive) : List (String × FileInfo) :=
  d.map (fun p => (p.1, infoOf p.2))

/-- `hasher::hash_file(root.join(rel))` on a drive: apply the content-hash
function `hf` to the bytes found at `rel` (absent paths never reach the
hasher in an error-free run). -/
def hashOn (hf : String → String) (d : Drive) (rel : String) : String :=
  hf (((d.lookup rel).map (·.content)).getD "")

/-- Delete a path from a drive (`remove_file_safe`). -/
def eraseKey (d : Drive) (k : String) : Drive :=
  d.filter (fun p => p.1 ≠ k)

/-- Filesystem effect of executing one diff entry in
`execute_one_way_sync`: Add/Update run `copy_file_safe` (destination
receives the source bytes, then the source mtime); Remove deletes the
target path; everything else is skipped by the actionable filter. -/
def applyEntryFs (source target : Drive) (e : DiffEntry) : Drive :=
  match e.action with
  | .Add | .Update =>
    match source.lookup e.relative_path with
    | some f => upsert target e.relative_path { content := f.content, mtime := f.mtime }
    | none => target
  | .Remove => eraseKey target e.relative_path
  | _ => target

/-- Target drive after an error-free, uncancelled `execute_one_way_sync`. -/
def executeOneWayFs (source target : Drive) (entries : List DiffEntry) : Drive :=
  entries.foldl (applyEntryFs source) target

/-- The complete one-way diff of two drives, hashing with `hf`. -/
def oneWayDiffOfDrives (profile_id : String) (keys : List String)
    (src tgt : Drive) (hf : String → String) : DiffResult :=
  computeOneWayDiff profile_id keys (collectInfos src) (collectInfos tgt)
    (hashOn hf src) (hashOn hf tgt)

/-- The value `execute_one_way_sync` leaves at one path: given the source
drive and the target's prior file at `e.relative_path`, the file found
there after `e` is executed (Add/Update copy the source file, Remove
deletes, anything else is skipped). -/
def entryEffect (src : Drive) (tgtAt : Option LiveFile) (e : DiffEntry) :
    Option LiveFile :=
  match e.action with
  | .Add | .Update =>
    match src.lookup e.relative_path with
    | some f => some { content := f.content, mtime := f.mtime }
    | none => tgtAt
  | .Remove => none
  | _ => tgtAt

/-- Count the diff entries carrying a given action. -/
def countAction (a : DiffAction) (es : List DiffEntry) : Nat :=
  es.countP (fun e => decide (e.action = a))

/-! # Theorems -/

theorem insertByPath_perm (e : DiffEntry) :
    ∀ l, List.Perm (insertByPath e l) (e :: l)
  | [] => List.Perm.refl _
  | x :: xs => by
    unfold insertByPath
    split
    · exact List.Perm.refl _
    · exact ((insertByPath_perm e xs).cons x).trans (List.Perm.swap e x xs)

theorem sortByPath_perm (l : List DiffEntry) :
    List.Perm (sortByPath l) l := by
  induction l with
  | nil => exact List.Perm.refl _
  | cons x xs ih =>
    have : sortByPath (x :: xs) = insertByPath x (sortByPath xs) := rfl
    rw [this]
    exact (insertByPath_perm x _).trans (ih.cons x)

theorem twoWay_foldl_conflicts (sf tf : List (String × FileState))
    (bl : List (String × FileBaseline)) :
    ∀ (keys : List String) (acc : DiffResult × List Conflict),
      (keys.foldl (twoWayStep sf tf bl) acc).2 =
        acc.2 ++ keys.filterMap (fun rel =>
          (twoWayKey rel (sf.lookup rel) (tf.lookup rel) (bl.lookup rel)).2.1)
  | [], acc => by simp
  | x :: xs, acc => by
    rw [List.foldl_cons, twoWay_foldl_conflicts sf tf bl xs]
    cases h : (twoWayKey x (sf.lookup x) (tf.lookup x) (bl.lookup x)).2.1 with
    | none => simp [twoWayStep, h]
    | some c => simp [twoWayStep, h]

theorem computeTwoWayDiff_conflicts (pid : String) (keys : List String)
    (sf tf : List (String × FileState)) (bl : List (String × FileBaseline)) :
    (computeTwoWayDiff pid keys sf tf bl).2 =
      keys.filterMap (fun rel =>
        (twoWayKey rel (sf.lookup rel) (tf.lookup rel) (bl.lookup rel)).2.1) := by
  have h := twoWay_foldl_conflicts sf tf bl keys
    ({ profile_id := pid, entries := [], total_add := 0,
       total_remove := 0, total_update := 0, total_conflict := 0,
       total_unchanged := 0, bytes_to_transfer := 0 }, [])
  simpa [computeTwoWayDiff] using h

theorem twoWayKey_conflict_isSome (rel : String) :
    ∀ (s t : Option FileState) (b : Option FileBaseline),
      (twoWayKey rel s t b).1.1 = .Conflict →
      ((twoWayKey rel s t b).2.1).isSome = true
  | none, none, none => by simp [twoWayKey]
  | none, none, some _ => by simp [twoWayKey]
  | some _, none, none => by simp [twoWayKey]
  | none, some _, none => by simp [twoWayKey]
  | some s, none, some b => by
    simp only [twoWayKey]
    split <;> simp
  | none, some t, some b => by
    simp only [twoWayKey]
    split <;> simp
  | some s, some t, none => by
    simp only [twoWayKey]
    split <;> simp
  | some s, some t, some b => by
    cases hsc : hashChanged b.source_hash s.hash <;>
      cases htc : hashChanged b.target_hash t.hash <;>
        simp only [twoWayKey, hsc, htc] <;> first
          | simp
          | (split <;> simp)

/-- C1: the two-way diff classifies each relative path from
`(present_src, present_tgt, present_baseline)` exactly as specified: with a
baseline and both sides present, only-source-changed gives
`Update/SourceToTarget`, only-target-changed gives `Update/TargetToSource`,
neither-changed gives `Unchanged`, both-changed gives
`Conflict (BothModified)` unless the live hashes agree (`Unchanged`); both
present without baseline gives `Conflict (FirstSyncDiffers)` unless the
hashes agree; one side present without baseline gives `Add` toward the
absent side; one side present with baseline gives
`Conflict (DeletedAndModified)` when the survivor's hash differs from its
baseline hash, else `Remove`; absent on both sides with a baseline gives
`Unchanged`; and every Conflict-action path contributes a parallel
`Conflict` record (with both-side observations, explicit in the equations
above) to the conflict list of `computeTwoWayDiff`. -/
theorem C1_two_way_classification :
    (∀ (rel : String) (s t : FileState) (b : FileBaseline),
      hashChanged b.source_hash s.hash = true →
      hashChanged b.target_hash t.hash = false →
      twoWayKey rel (some s) (some t) (some b) =
        ((.Update, .SourceToTarget), none, s.size)) ∧
    (∀ (rel : String) (s t : FileState) (b : FileBaseline),
      hashChanged b.source_hash s.hash = false →
      hashChanged b.target_hash t.hash = true →
      twoWayKey rel (some s) (some t) (some b) =
        ((.Update, .TargetToSource), none, t.size)) ∧
    (∀ (rel : String) (s t : FileState) (b : FileBaseline),
      hashChanged b.source_hash s.hash = false →
      hashChanged b.target_hash t.hash = false →
      twoWayKey rel (some s) (some t) (some b) =
        ((.Unchanged, .Both), none, 0)) ∧
    (∀ (rel : String) (s t : FileState) (b : FileBaseline),
      hashChanged b.source_hash s.hash = true →
      hashChanged b.target_hash t.hash = true →
      twoWayKey rel (some s) (some t) (some b) =
        (if s.hash = t.hash then ((.Unchanged, .Both), none, 0)
         else
          ((.Conflict, .Both),
            some { relative_path := rel, conflict_type := .BothModified
                   source_hash := some s.hash, target_hash := some t.hash
                   source_modified := some s.modified
                   target_modified := some t.modified
                   source_size := some s.size, target_size := some t.size },
            0))) ∧
    (∀ (rel : String) (s t : FileState),
      twoWayKey rel (some s) (some t) none =
        (if s.hash = t.hash then ((.Unchanged, .Both), none, 0)
         else
          ((.Conflict, .Both),
            some { relative_path := rel, conflict_type := .FirstSyncDiffers
                   source_hash := some s.hash, target_hash := some t.hash
                   source_modified := some s.modified
                   target_modified := some t.modified
                   source_size := some s.size, target_size := some t.size },
            0))) ∧
    (∀ (rel : String) (s : FileState),
      twoWayKey rel (some s) none none =
        ((.Add, .SourceToTarget), none, s.size)) ∧
    (∀ (rel : String) (t : FileState),
      twoWayKey rel none (some t) none =
        ((.Add, .TargetToSource), none, t.size)) ∧
    (∀ (rel : String) (s : FileState) (b : FileBaseline),
      twoWayKey rel (some s) none (some b) =
        (if hashChanged b.source_hash s.hash then
          ((.Conflict, .Both),
            some { relative_path := rel, conflict_type := .DeletedAndModified
                   source_hash := some s.hash, target_hash := none
                   source_modified := some s.modified, target_modified := none
                   source_size := some s.size, target_size := none }, 0)
         else ((.Remove, .SourceToTarget), none, 0))) ∧
    (∀ (rel : String) (t : FileState) (b : FileBaseline),
      twoWayKey rel none (some t) (some b) =
        (if hashChanged b.target_hash t.hash then
          ((.Conflict, .Both),
            some { relative_path := rel, conflict_type := .DeletedAndModified
                   source_hash := none, target_hash := some t.hash
                   source_modified := none, target_modified := some t.modified
                   source_size := none, target_size := some t.size }, 0)
         else ((.Remove, .TargetToSource), none, 0))) ∧
    (∀ (rel : String) (b : FileBaseline),
      twoWayKey rel none none (some b) = ((.Unchanged, .Both), none, 0)) ∧
    (∀ (pid : String) (keys : List String) (sf tf : List (String × FileState))
        (bl : List (String × FileBaseline)) (rel : String),
      rel ∈ keys →
      (twoWayKey rel (sf.lookup rel) (tf.lookup rel) (bl.lookup rel)).1.1 =
        .Conflict →
      ∃ c ∈ (computeTwoWayDiff pid keys sf tf bl).2,
        some c =
          (twoWayKey rel (sf.lookup rel) (tf.lookup rel) (bl.lookup rel)).2.1) := by
  refine ⟨?_, ?_, ?_, ?_, ?_, ?_, ?_, ?_, ?_, ?_, ?_⟩
  · intro rel s t b h1 h2; simp [twoWayKey, h1, h2]
  · intro rel s t b h1 h2; simp [twoWayKey, h1, h2]
  · intro rel s t b h1 h2; simp [twoWayKey, h1, h2]
  · intro rel s t b h1 h2; simp [twoWayKey, h1, h2]
  · intro rel s t; simp [twoWayKey]
  · intro rel s; simp [twoWayKey]
  · intro rel t; simp [twoWayKey]
  · intro rel s b; simp [twoWayKey]
  · intro rel t b; simp [twoWayKey]
  · intro rel b; simp [twoWayKey]
  · intro pid keys sf tf bl rel hmem hconf
    rw [computeTwoWayDiff_conflicts]
    have hsome := twoWayKey_conflict_isSome rel _ _ _ hconf
    rcases ho : (twoWayKey rel (sf.lookup rel) (tf.lookup rel)
        (bl.lookup rel)).2.1 with _ | c
    · rw [ho] at hsome; simp at hsome
    · exact ⟨c, List.mem_filterMap.mpr ⟨rel, hmem, ho⟩, rfl⟩

/-- Witness for `C1_two_way_classification` at concrete file states. -/
theorem C1_two_way_classification_witness :
    twoWayKey "a.flac" (some ⟨"h1", 10, 5⟩) (some ⟨"h0", 11, 6⟩)
        (some ⟨"a.flac", some "h0", some "h0", none, none, none, none⟩) =
      ((.Update, .SourceToTarget), none, 5) ∧
    twoWayKey "a.flac" (some ⟨"h1", 10, 5⟩) (some ⟨"h2", 11, 6⟩) none =
      ((.Conflict, .Both),
        some { relative_path := "a.flac", conflict_type := .FirstSyncDiffers
               source_hash := some "h1", target_hash := some "h2"
               source_modified := some 10, target_modified := some 11
               source_size := some 5, target_size := some 6 }, 0) ∧
    ∃ c ∈ (computeTwoWayDiff "p" ["a.flac"] [("a.flac", ⟨"h1", 10, 5⟩)]
        [("a.flac", ⟨"h2", 11, 6⟩)] []).2,
      some c = (twoWayKey "a.flac" ((([("a.flac",
        (⟨"h1", 10, 5⟩ : FileState))]).lookup "a.flac"))
        (([("a.flac", (⟨"h2", 11, 6⟩ : FileState))]).lookup "a.flac")
        (([] : List (String × FileBaseline)).lookup "a.flac")).2.1 := by
  refine ⟨?_, ?_, ?_⟩
  · exact C1_two_way_classification.1 "a.flac" ⟨"h1", 10, 5⟩ ⟨"h0", 11, 6⟩
      ⟨"a.flac", some "h0", some "h0", none, none, none, none⟩
      (by decide) (by decide)
  · have h := C1_two_way_classification.2.2.2.2.1 "a.flac"
      (⟨"h1", 10, 5⟩ : FileState) (⟨"h2", 11, 6⟩ : FileState)
    rw [h]; decide
  · exact C1_two_way_classification.2.2.2.2.2.2.2.2.2.2 "p" ["a.flac"]
      [("a.flac", ⟨"h1", 10, 5⟩)] [("a.flac", ⟨"h2", 11, 6⟩)] []
      "a.flac" (by decide) (by decide)

theorem oneWay_foldl_entries (sf tf : List (String × FileInfo))
    (hs ht : String → String) :
    ∀ (keys : List String) (d : DiffResult),
      (keys.foldl (oneWayStep sf tf hs ht) d).entries =
        d.entries ++ (keys.filterMap (fun rel =>
          oneWayKey hs ht rel (sf.lookup rel) (tf.lookup rel))).map (·.1)
  | [], d => by simp
  | x :: xs, d => by
    rw [List.foldl_cons, oneWay_foldl_entries sf tf hs ht xs]
    cases h : oneWayKey hs ht x (sf.lookup x) (tf.lookup x) with
    | none => simp [oneWayStep, h]
    | some eb => simp [oneWayStep, h]

theorem oneWay_foldl_count (sf tf : List (String × FileInfo))
    (hs ht : String → String) (a : DiffAction) :
    ∀ (keys : List String) (d : DiffResult),
      ((keys.foldl (oneWayStep sf tf hs ht) d).entries).countP
          (fun e => decide (e.action = a)) =
        d.entries.countP (fun e => decide (e.action = a)) +
          (keys.filterMap (fun rel =>
            oneWayKey hs ht rel (sf.lookup rel) (tf.lookup rel))).countP
            (fun p => decide (p.1.action = a)) := by
  intro keys d
  rw [oneWay_foldl_entries]
  simp [List.countP_append, List.countP_map, Function.comp_def]

theorem oneWay_foldl_total_add (sf tf : List (String × FileInfo))
    (hs ht : String → String) :
    ∀ (keys : List String) (d : DiffResult),
      (keys.foldl (oneWayStep sf tf hs ht) d).total_add =
        d.total_add + (keys.filterMap (fun rel =>
          oneWayKey hs ht rel (sf.lookup rel) (tf.lookup rel))).countP
          (fun p => decide (p.1.action = .Add))
  | [], d => by simp
  | x :: xs, d => by
    rw [List.foldl_cons, oneWay_foldl_total_add sf tf hs ht xs]
    cases h : oneWayKey hs ht x (sf.lookup x) (tf.lookup x) with
    | none => simp [oneWayStep, h]
    | some eb =>
      by_cases ha : eb.1.action = .Add <;>
        simp [oneWayStep, h, List.countP_cons, ha] <;> omega

theorem oneWay_foldl_total_remove (sf tf : List (String × FileInfo))
    (hs ht : String → String) :
    ∀ (keys : List String) (d : DiffResult),
      (keys.foldl (oneWayStep sf tf hs ht) d).total_remove =
        d.total_remove + (keys.filterMap (fun rel =>
          oneWayKey hs ht rel (sf.lookup rel) (tf.lookup rel))).countP
          (fun p => decide (p.1.action = .Remove))
  | [], d => by simp
  | x :: xs, d => by
    rw [List.foldl_cons, oneWay_foldl_total_remove sf tf hs ht xs]
    cases h : oneWayKey hs ht x (sf.lookup x) (tf.lookup x) with
    | none => simp [oneWayStep, h]
    | some eb =>
      by_cases ha : eb.1.action = .Remove <;>
        simp [oneWayStep, h, List.countP_cons, ha] <;> omega

theorem oneWay_foldl_total_update (sf tf : List (String × FileInfo))
    (hs ht : String → String) :
    ∀ (keys : List String) (d : DiffResult),
      (keys.foldl (oneWayStep sf tf hs ht) d).total_update =
        d.total_update + (keys.filterMap (fun rel =>
          oneWayKey hs ht rel (sf.lookup rel) (tf.lookup rel))).countP
          (fun p => decide (p.1.action = .Update))
  | [], d => by simp
  | x :: xs, d => by
    rw [List.foldl_cons, oneWay_foldl_total_update sf tf hs ht xs]
    cases h : oneWayKey hs ht x (sf.lookup x) (tf.lookup x) with
    | none => simp [oneWayStep, h]
    | some eb =>
      by_cases ha : eb.1.action = .Update <;>
        simp [oneWayStep, h, List.countP_cons, ha] <;> omega

theorem oneWay_foldl_total_unchanged (sf tf : List (String × FileInfo))
    (hs ht : String → String) :
    ∀ (keys : List String) (d : DiffResult),
      (keys.foldl (oneWayStep sf tf hs ht) d).total_unchanged =
        d.total_unchanged + (keys.filterMap (fun rel =>
          oneWayKey hs ht rel (sf.lookup rel) (tf.lookup rel))).countP
          (fun p => decide (p.1.action = .Unchanged))
  | [], d => by simp
  | x :: xs, d => by
    rw [List.foldl_cons, oneWay_foldl_total_unchanged sf tf hs ht xs]
    cases h : oneWayKey hs ht x (sf.lookup x) (tf.lookup x) with
    | none => simp [oneWayStep, h]
    | some eb =>
      by_cases ha : eb.1.action = .Unchanged <;>
        simp [oneWayStep, h, List.countP_cons, ha] <;> omega

theorem oneWay_foldl_total_conflict (sf tf : List (String × FileInfo))
    (hs ht : String → String) :
    ∀ (keys : List String) (d : DiffResult),
      (keys.foldl (oneWayStep sf tf hs ht) d).total_conflict =
        d.total_conflict
  | [], d => by simp
  | x :: xs, d => by
    rw [List.foldl_cons, oneWay_foldl_total_conflict sf tf hs ht xs]
    cases h : oneWayKey hs ht x (sf.lookup x) (tf.lookup x) with
    | none => simp [oneWayStep, h]
    | some eb => simp [oneWayStep, h]

theorem oneWay_foldl_bytes (sf tf : List (String × FileInfo))
    (hs ht : String → String) :
    ∀ (keys : List String) (d : DiffResult),
      (keys.foldl (oneWayStep sf tf hs ht) d).bytes_to_transfer =
        d.bytes_to_transfer + ((keys.filterMap (fun rel =>
          oneWayKey hs ht rel (sf.lookup rel) (tf.lookup rel))).map (·.2)).sum
  | [], d => by simp
  | x :: xs, d => by
    rw [List.foldl_cons, oneWay_foldl_bytes sf tf hs ht xs]
    cases h : oneWayKey hs ht x (sf.lookup x) (tf.lookup x) with
    | none => simp [oneWayStep, h]
    | some eb => simp [oneWayStep, h]; omega

theorem computeOneWayDiff_entries (pid : String) (keys : List String)
    (sf tf : List (String × FileInfo)) (hs ht : String → String) :
    (computeOneWayDiff pid keys sf tf hs ht).entries =
      sortByPath ((keys.filterMap (fun rel =>
        oneWayKey hs ht rel (sf.lookup rel) (tf.lookup rel))).map (·.1)) := by
  have h := oneWay_foldl_entries sf tf hs ht keys
    { profile_id := pid, entries := [], total_add := 0,
      total_remove := 0, total_update := 0, total_conflict := 0,
      total_unchanged := 0, bytes_to_transfer := 0 }
  simp only [computeOneWayDiff]
  rw [h]
  simp

theorem countAction_of_perm (a : DiffAction) {l₁ l₂ : List DiffEntry}
    (h : List.Perm l₁ l₂) : countAction a l₁ = countAction a l₂ :=
  h.countP_eq _

/-- C2: the one-way diff assigns each path by presence — source-only gives
`Add/SourceToTarget` accounting `source.size` bytes; target-only gives
`Remove/SourceToTarget`; both present with equal `(size, mtime)` gives
`Unchanged` without consulting either hash function; otherwise both sides
are hashed (through the memoizing `computeHashIfNeeded`) and equal hashes
give `Unchanged` while unequal hashes give `Update` accounting
`source.size`; the counters of `computeOneWayDiff` count exactly the
entries of each action, `total_conflict` is `0`, and `bytes_to_transfer`
is the sum of the per-path contributions. -/
theorem C2_one_way_classification :
    (∀ (hs ht : String → String) (rel : String) (src : FileInfo),
      oneWayKey hs ht rel (some src) none =
        some
          ({ relative_path := rel, action := .Add, direction := .SourceToTarget
             source_size := some src.size, target_size := none
             source_hash := some (computeHashIfNeeded hs rel src).1
             target_hash := none
             source_modified := some src.modified, target_modified := none },
            src.size)) ∧
    (∀ (hs ht : String → String) (rel : String) (tgt : FileInfo),
      oneWayKey hs ht rel none (some tgt) =
        some
          ({ relative_path := rel, action := .Remove
             direction := .SourceToTarget
             source_size := none, target_size := some tgt.size
             source_hash := none, target_hash := none
             source_modified := none, target_modified := some tgt.modified },
            0)) ∧
    (∀ (hs ht : String → String) (rel : String) (src tgt : FileInfo),
      src.size = tgt.size → src.modified = tgt.modified →
      oneWayKey hs ht rel (some src) (some tgt) =
        some
          ({ relative_path := rel, action := .Unchanged
             direction := .SourceToTarget
             source_size := some src.size, target_size := some tgt.size
             source_hash := none, target_hash := none
             source_modified := some src.modified
             target_modified := some tgt.modified }, 0)) ∧
    (∀ (hs ht hs' ht' : String → String) (rel : String) (src tgt : FileInfo),
      src.size = tgt.size → src.modified = tgt.modified →
      oneWayKey hs ht rel (some src) (some tgt) =
        oneWayKey hs' ht' rel (some src) (some tgt)) ∧
    (∀ (hs ht : String → String) (rel : String) (src tgt : FileInfo),
      ¬(src.size = tgt.size ∧ src.modified = tgt.modified) →
      (computeHashIfNeeded hs rel src).1 = (computeHashIfNeeded ht rel tgt).1 →
      oneWayKey hs ht rel (some src) (some tgt) =
        some
          ({ relative_path := rel, action := .Unchanged
             direction := .SourceToTarget
             source_size := some src.size, target_size := some tgt.size
             source_hash := some (computeHashIfNeeded hs rel src).1
             target_hash := some (computeHashIfNeeded ht rel tgt).1
             source_modified := some src.modified
             target_modified := some tgt.modified }, 0)) ∧
    (∀ (hs ht : String → String) (rel : String) (src tgt : FileInfo),
      ¬(src.size = tgt.size ∧ src.modified = tgt.modified) →
      (computeHashIfNeeded hs rel src).1 ≠ (computeHashIfNeeded ht rel tgt).1 →
      oneWayKey hs ht rel (some src) (some tgt) =
        some
          ({ relative_path := rel, action := .Update
             direction := .SourceToTarget
             source_size := some src.size, target_size := some tgt.size
             source_hash := some (computeHashIfNeeded hs rel src).1
             target_hash := some (computeHashIfNeeded ht rel tgt).1
             source_modified := some src.modified
             target_modified := some tgt.modified }, src.size)) ∧
    (∀ (pid : String) (keys : List String)
        (sf tf : List (String × FileInfo)) (hs ht : String → String),
      (computeOneWayDiff pid keys sf tf hs ht).total_add =
          countAction .Add (computeOneWayDiff pid keys sf tf hs ht).entries ∧
        (computeOneWayDiff pid keys sf tf hs ht).total_remove =
          countAction .Remove (computeOneWayDiff pid keys sf tf hs ht).entries ∧
        (computeOneWayDiff pid keys sf tf hs ht).total_update =
          countAction .Update (computeOneWayDiff pid keys sf tf hs ht).entries ∧
        (computeOneWayDiff pid keys sf tf hs ht).total_unchanged =
          countAction .Unchanged (computeOneWayDiff pid keys sf tf hs ht).entries ∧
        (computeOneWayDiff pid keys sf tf hs ht).total_conflict = 0 ∧
        (computeOneWayDiff pid keys sf tf hs ht).bytes_to_transfer =
          ((keys.filterMap (fun rel =>
            oneWayKey hs ht rel (sf.lookup rel) (tf.lookup rel))).map
            (·.2)).sum) := by
  refine ⟨?_, ?_, ?_, ?_, ?_, ?_, ?_⟩
  · intro hs ht rel src; simp [oneWayKey]
  · intro hs ht rel tgt; simp [oneWayKey]
  · intro hs ht rel src tgt h1 h2; simp [oneWayKey, h1, h2]
  · intro hs ht hs' ht' rel src tgt h1 h2; simp [oneWayKey, h1, h2]
  · intro hs ht rel src tgt h1 h2; simp [oneWayKey, h1, h2]
  · intro hs ht rel src tgt h1 h2; simp [oneWayKey, h1, h2]
  · intro pid keys sf tf hs ht
    have hperm : List.Perm
        (computeOneWayDiff pid keys sf tf hs ht).entries
        ((keys.filterMap (fun rel =>
          oneWayKey hs ht rel (sf.lookup rel) (tf.lookup rel))).map (·.1)) := by
      rw [computeOneWayDiff_entries]; exact sortByPath_perm _
    have hcnt : ∀ a : DiffAction,
        countAction a (computeOneWayDiff pid keys sf tf hs ht).entries =
          (keys.filterMap (fun rel =>
            oneWayKey hs ht rel (sf.lookup rel) (tf.lookup rel))).countP
            (fun p => decide (p.1.action = a)) := by
      intro a
      rw [countAction_of_perm a hperm]
      simp [countAction, List.countP_map, Function.comp_def]
    refine ⟨?_, ?_, ?_, ?_, ?_, ?_⟩
    · rw [hcnt]
      have h := oneWay_foldl_total_add sf tf hs ht keys
        { profile_id := pid, entries := [], total_add := 0,
          total_remove := 0, total_update := 0, total_conflict := 0,
          total_unchanged := 0, bytes_to_transfer := 0 }
      simpa [computeOneWayDiff] using h
    · rw [hcnt]
      have h := oneWay_foldl_total_remove sf tf hs ht keys
        { profile_id := pid, entries := [], total_add := 0,
          total_remove := 0, total_update := 0, total_conflict := 0,
          total_unchanged := 0, bytes_to_transfer := 0 }
      simpa [computeOneWayDiff] using h
    · rw [hcnt]
      have h := oneWay_foldl_total_update sf tf hs ht keys
        { profile_id := pid, entries := [], total_add := 0,
          total_remove := 0, total_update := 0, total_conflict := 0,
          total_unchanged := 0, bytes_to_transfer := 0 }
      simpa [computeOneWayDiff] using h
    · rw [hcnt]
      have h := oneWay_foldl_total_unchanged sf tf hs ht keys
        { profile_id := pid, entries := [], total_add := 0,
          total_remove := 0, total_update := 0, total_conflict := 0,
          total_unchanged := 0, bytes_to_transfer := 0 }
      simpa [computeOneWayDiff] using h
    · have h := oneWay_foldl_total_conflict sf tf hs ht keys
        { profile_id := pid, entries := [], total_add := 0,
          total_remove := 0, total_update := 0, total_conflict := 0,
          total_unchanged := 0, bytes_to_transfer := 0 }
      simpa [computeOneWayDiff] using h
    · have h := oneWay_foldl_bytes sf tf hs ht keys
        { profile_id := pid, entries := [], total_add := 0,
          total_remove := 0, total_update := 0, total_conflict := 0,
          total_unchanged := 0, bytes_to_transfer := 0 }
      simpa [computeOneWayDiff] using h

/-- Witness for `C2_one_way_classification` at concrete file records. -/
theorem C2_one_way_classification_witness :
    oneWayKey (fun _ => "A") (fun _ => "B") "a.flac"
        (some ⟨5, 10, none⟩) (some ⟨6, 10, none⟩) =
      some
        ({ relative_path := "a.flac", action := .Update
           direction := .SourceToTarget
           source_size := some 5, target_size := some 6
           source_hash := some "A", target_hash := some "B"
           source_modified := some 10, target_modified := some 10 }, 5) ∧
    oneWayKey (fun _ => "A") (fun _ => "B") "b.mp3"
        (some ⟨7, 4, none⟩) (some ⟨7, 4, none⟩) =
      some
        ({ relative_path := "b.mp3", action := .Unchanged
           direction := .SourceToTarget
           source_size := some 7, target_size := some 7
           source_hash := none, target_hash := none
           source_modified := some 4, target_modified := some 4 }, 0) := by
  constructor
  · have h := C2_one_way_classification.2.2.2.2.2.1 (fun _ => "A") (fun _ => "B")
      "a.flac" ⟨5, 10, none⟩ ⟨6, 10, none⟩ (by decide) (by decide)
    simpa [computeHashIfNeeded] using h
  · have h := C2_one_way_classification.2.2.1 (fun _ => "A") (fun _ => "B")
      "b.mp3" ⟨7, 4, none⟩ ⟨7, 4, none⟩ rfl rfl
    simpa using h

/-- C3 as stated is false: in the one-way tree collection a single failing
walk entry makes the whole collection — and hence the diff calling it —
return an error instead of skipping the entry. -/
theorem C3_counterexample :
    collectFiles (fun _ => false) [Except.error "permission denied"] =
        Except.error "permission denied" ∧
    collectFileStates (fun _ => false) [Except.error "permission denied"] =
        Except.error "permission denied" := by
  exact ⟨rfl, rfl⟩

/-- C3 (amended): only the device-diff walk skips per-entry errors; in the
one-way and two-way collections a walk error or a metadata error on any
entry aborts the collection with that error, while `collect_device_files`
skips the failing entry (walk error or unreadable metadata) and still
collects the remaining files. -/
theorem C3_walk_error_handling :
    (∀ (ex : String → Bool) (msg : String)
        (items : List (Except String WalkEntry)),
      collectFiles ex (.error msg :: items) = .error msg) ∧
    (∀ (ex : String → Bool) (msg : String)
        (items : List (Except String WalkEntry)),
      collectFileStates ex (.error msg :: items) = .error msg) ∧
    (∀ (msg : String) (items : List (Except String WalkEntry)),
      collectDeviceFiles (.error msg :: items) = collectDeviceFiles items) ∧
    (∀ (e : WalkEntry) (msg : String) (items : List (Except String WalkEntry)),
      e.meta = .error msg →
      collectDeviceFiles (.ok e :: items) = collectDeviceFiles items) := by
  refine ⟨fun _ _ _ => rfl, fun _ _ _ => rfl, fun _ _ => rfl, ?_⟩
  intro e msg items hmeta
  show collectDeviceFiles.go [] (.ok e :: items) = collectDeviceFiles.go [] items
  by_cases hp : devicePruned e
  · simp [collectDeviceFiles.go, hp]
  · by_cases hf : e.isFile && isAudioFile e.fileName
    · simp [collectDeviceFiles.go, hp, hf, hmeta]
    · simp [collectDeviceFiles.go, hp, hf]

/-- Witness for `C3_walk_error_handling` at a concrete failing entry. -/
theorem C3_walk_error_handling_witness :
    collectFiles (fun _ => false) [Except.error "EACCES"] =
        Except.error "EACCES" ∧
    collectDeviceFiles
        [Except.ok ⟨"/dev/t.flac", "t.flac", "t.flac", [], true, false,
          Except.error "stat failed", Except.ok "h"⟩] = [] := by
  refine ⟨C3_walk_error_handling.1 (fun _ => false) "EACCES" [], ?_⟩
  exact C3_walk_error_handling.2.2.2
    ⟨"/dev/t.flac", "t.flac", "t.flac", [], true, false,
      Except.error "stat failed", Except.ok "h"⟩ "stat failed" [] rfl

/-- C9 as stated is false: the one-way/two-way collections and the library
walker do not prune hidden directories, so an audio file beneath a
dot-directory is still collected and would be diffed and synced. -/
theorem C9_counterexample :
    (WalkEntry.ancestors ⟨"/lib/.cache/track.flac", ".cache/track.flac",
        "track.flac", [".cache"], true, false,
        Except.ok ⟨100, Except.ok 5⟩, Except.ok "h"⟩).any isHidden = true ∧
    collectFiles (fun _ => false)
        [Except.ok ⟨"/lib/.cache/track.flac", ".cache/track.flac",
          "track.flac", [".cache"], true, false,
          Except.ok ⟨100, Except.ok 5⟩, Except.ok "h"⟩] =
      Except.ok [(".cache/track.flac", ⟨100, 5, none⟩)] ∧
    walkDirectory (fun _ => false)
        [Except.ok ⟨"/lib/.cache/track.flac", ".cache/track.flac",
          "track.flac", [".cache"], true, false,
          Except.ok ⟨100, Except.ok 5⟩, Except.ok "h"⟩] =
      ["/lib/.cache/track.flac"] := by
  refine ⟨by decide, by decide, by decide⟩

/-- C9 (amended): only the device walk (`collect_device_files`) skips
directories whose leaf name begins with `.` — a pruned entry contributes
nothing — while the library walker (`walk_directory`) and the one-way
collection (`collect_files`) yield audio files regardless of hidden
ancestor directories. -/
theorem C9_hidden_directories :
    (∀ (e : WalkEntry) (items : List (Except String WalkEntry)),
      devicePruned e = true →
      collectDeviceFiles (.ok e :: items) = collectDeviceFiles items) ∧
    (∀ (ex : String → Bool) (e : WalkEntry) (m : WalkMeta) (modified : Int),
      e.isFile = true → isAudioFile e.fileName = true → ex e.rel = false →
      e.meta = .ok m → m.modifiedRes = .ok modified →
      collectFiles ex [.ok e] = .ok [(e.rel, ⟨m.size, modified, none⟩)]) ∧
    (∀ (ex : String → Bool) (e : WalkEntry)
        (items : List (Except String WalkEntry)),
      e.isFile = true → isAudioFile e.fileName = true → ex e.rel = false →
      walkDirectory ex (.ok e :: items) = e.path :: walkDirectory ex items) := by
  refine ⟨?_, ?_, ?_⟩
  · intro e items hp
    show collectDeviceFiles.go [] (.ok e :: items) = collectDeviceFiles.go [] items
    simp [collectDeviceFiles.go, hp]
  · intro ex e m modified hf ha hex hmeta hmod
    show collectFiles.go ex [] [.ok e] = _
    simp [collectFiles.go, hf, ha, hex, hmeta, hmod, upsert]
  · intro ex e items hf ha hex
    simp [walkDirectory, Except.toOption, List.filterMap_cons,
      List.filter_cons, hf, ha, hex]

/-- Witness for `C9_hidden_directories`: a pruned device entry beneath
`.Trashes` is dropped, while the same file shape is collected by
`collect_files` even beneath `.cache`. -/
theorem C9_hidden_directories_witness :
    collectDeviceFiles
        [Except.ok ⟨"/dev/.Trashes/t.flac", ".Trashes/t.flac", "t.flac",
          [".Trashes"], true, false, Except.ok ⟨100, Except.ok 5⟩,
          Except.ok "h"⟩] = [] ∧
    collectFiles (fun _ => false)
        [Except.ok ⟨"/lib/.cache/track.flac", ".cache/track.flac",
          "track.flac", [".cache"], true, false,
          Except.ok ⟨100, Except.ok 5⟩, Except.ok "h"⟩] =
      Except.ok [(".cache/track.flac", ⟨100, 5, none⟩)] := by
  constructor
  · exact C9_hidden_directories.1
      ⟨"/dev/.Trashes/t.flac", ".Trashes/t.flac", "t.flac", [".Trashes"],
        true, false, Except.ok ⟨100, Except.ok 5⟩, Except.ok "h"⟩ []
      (by decide)
  · exact C9_hidden_directories.2.1 (fun _ => false)
      ⟨"/lib/.cache/track.flac", ".cache/track.flac", "track.flac",
        [".cache"], true, false, Except.ok ⟨100, Except.ok 5⟩, Except.ok "h"⟩
      ⟨100, Except.ok 5⟩ 5 rfl (by decide) rfl rfl rfl

/-- C4: the one-way and two-way executors do emit `SyncError` and continue
past a per-file failure, but the device executor's Remove arm uses `?` on
`std::fs::remove_file`, so a failing device-mode Remove aborts the whole
run with an `Io` error instead of continuing — contradicting the spec's
"per-file error ⇒ emit `SyncError { file, error }` and continue". -/
theorem C4_per_file_error_handling :
    (executeOneWaySync
        [⟨"a.flac", .Add, .SourceToTarget, some 5, none, some "h", none,
          some 10, none⟩,
         ⟨"b.mp3", .Remove, .SourceToTarget, none, some 4, none, none, none,
          some 2⟩]
        (fun e => if e.relative_path = "a.flac" then .error "EACCES" else .ok ())
        (fun _ => false)).result = .ok 2 ∧
    ProgressEvent.syncError "a.flac" "EACCES" ∈
      (executeOneWaySync
        [⟨"a.flac", .Add, .SourceToTarget, some 5, none, some "h", none,
          some 10, none⟩,
         ⟨"b.mp3", .Remove, .SourceToTarget, none, some 4, none, none, none,
          some 2⟩]
        (fun e => if e.relative_path = "a.flac" then .error "EACCES" else .ok ())
        (fun _ => false)).events ∧
    (executeTwoWaySync
        [⟨"c.ogg", .Remove, .TargetToSource, none, some 7, none, none, none,
          some 3⟩]
        [] ⟨fun _ _ => .ok (), fun _ _ => .ok (), fun _ _ => .error "EROFS"⟩
        (fun _ => false)).result = .ok 1 ∧
    (executeDeviceSync
        [⟨"z.mp3", .Remove, .SourceToTarget, none, some 4, none, none, none,
          some 2⟩]
        ⟨fun _ => .ok (), fun _ => .error "EACCES", fun _ => true,
          fun _ => none, fun _ => true⟩
        (fun _ => false) "/dev" []).result = .error (.ioError "EACCES") := by
  refine ⟨by decide, by decide, by decide, by decide⟩

theorem execOneWayLoop_cancel (fsOp : DiffEntry → Except String Unit)
    (flag : Nat → Bool) (tf tb : Nat) :
    ∀ (es : List DiffEntry) (k fc bc : Nat),
      (∀ j, j < k → flag (fc + j) = false) → flag (fc + k) = true →
      k < es.length →
      (execOneWayLoop fsOp flag tf tb es fc bc).result =
          .error .syncCancelled ∧
        (execOneWayLoop fsOp flag tf tb es fc bc).acts =
          (es.take k).map (·.relative_path) := by
  intro es
  induction es with
  | nil => intro k fc bc _ _ hlt; simp at hlt
  | cons e rest ih =>
    intro k fc bc hbefore hk hlt
    cases k with
    | zero =>
      have h0 : flag fc = true := by simpa using hk
      simp [execOneWayLoop, h0]
    | succ k' =>
      have h0 : flag fc = false := by simpa using hbefore 0 (Nat.succ_pos k')
      have hb' : ∀ j, j < k' → flag (fc + 1 + j) = false := by
        intro j hj
        have h := hbefore (j + 1) (by omega)
        rwa [show fc + (j + 1) = fc + 1 + j by omega] at h
      have hk' : flag (fc + 1 + k') = true := by
        rwa [show fc + 1 + k' = fc + (k' + 1) by omega]
      have ihh := ih k' (fc + 1) (bc + entryBytes e) hb' hk'
        (by simpa using Nat.lt_of_succ_lt_succ hlt)
      constructor
      · simp only [execOneWayLoop, h0]
        simpa using ihh.1
      · simp only [execOneWayLoop, h0]
        simp [ihh.2]

/-- C5: with the cancellation flag first observed `true` at the check that
opens iteration `k` (the flag is polled at the top of each entry
iteration), the executor performs exactly the filesystem actions of the
first `k` actionable entries — hence at most one per-file action after the
moment `cancel()` flipped the flag — and returns `SyncCancelled`, and
`execute_sync` then skips post-sync baseline regeneration and saving. -/
theorem C5_cancellation (entries : List DiffEntry)
    (fsOp : DiffEntry → Except String Unit) (flag : Nat → Bool) (k : Nat)
    (hbefore : ∀ j, j < k → flag j = false) (hk : flag k = true)
    (hlt : k < (entries.filter isActionable).length) :
    (executeOneWaySync entries fsOp flag).result = .error .syncCancelled ∧
    (executeOneWaySync entries fsOp flag).acts =
      ((entries.filter isActionable).take k).map (·.relative_path) ∧
    (executeSyncCmd entries fsOp flag).2 = false := by
  have h := execOneWayLoop_cancel fsOp flag
    (entries.filter isActionable).length
    ((entries.filter isActionable).map entryBytes).sum
    (entries.filter isActionable) k 0 0
    (fun j hj => by simpa using hbefore j hj) (by simpa using hk) hlt
  refine ⟨?_, ?_, ?_⟩
  · simpa [executeOneWaySync] using h.1
  · simpa [executeOneWaySync] using h.2
  · have hres : (executeOneWaySync entries fsOp flag).result =
        .error .syncCancelled := by simpa [executeOneWaySync] using h.1
    simp [executeSyncCmd, hres]

/-- Witness for `C5_cancellation`: the flag flips before the check opening
iteration 1, so exactly one of the two Add actions runs. -/
theorem C5_cancellation_witness :
    (executeOneWaySync
        [⟨"a.flac", .Add, .SourceToTarget, some 5, none, none, none,
          some 10, none⟩,
         ⟨"b.mp3", .Add, .SourceToTarget, some 4, none, none, none,
          some 2, none⟩]
        (fun _ => .ok ()) (fun i => decide (1 ≤ i))).result =
      .error .syncCancelled ∧
    (executeOneWaySync
        [⟨"a.flac", .Add, .SourceToTarget, some 5, none, none, none,
          some 10, none⟩,
         ⟨"b.mp3", .Add, .SourceToTarget, some 4, none, none, none,
          some 2, none⟩]
        (fun _ => .ok ()) (fun i => decide (1 ≤ i))).acts = ["a.flac"] := by
  have h := C5_cancellation
    [⟨"a.flac", .Add, .SourceToTarget, some 5, none, none, none,
      some 10, none⟩,
     ⟨"b.mp3", .Add, .SourceToTarget, some 4, none, none, none,
      some 2, none⟩]
    (fun _ => .ok ()) (fun i => decide (1 ≤ i)) 1
    (by decide) (by decide) (by decide)
  exact ⟨h.1, by rw [h.2.1]; decide⟩

/-- C10: `CancelToken` can only be set, never cleared, and `execute_sync`
passes the stored flag through unchanged; therefore once `cancel` has run,
any later `execute_sync` whose diff has at least one actionable entry
returns `SyncCancelled` at the very first iteration check, before any
filesystem action, and never reaches the baseline-saving step. -/
theorem C10_flag_never_reset (t : CancelToken) (entries : List DiffEntry)
    (fsOp : DiffEntry → Except String Unit)
    (hne : entries.filter isActionable ≠ []) :
    (t.cancel).isCancelled = true ∧
    ((t.cancel).cancel).isCancelled = true ∧
    (executeSyncCmd entries fsOp
      (fun _ => (t.cancel).isCancelled)).1.result = .error .syncCancelled ∧
    (executeSyncCmd entries fsOp
      (fun _ => (t.cancel).isCancelled)).1.acts = [] ∧
    (executeSyncCmd entries fsOp (fun _ => (t.cancel).isCancelled)).2 = false := by
  cases hact : entries.filter isActionable with
  | nil => exact absurd hact hne
  | cons e rest =>
    refine ⟨rfl, rfl, ?_, ?_, ?_⟩ <;>
      simp [executeSyncCmd, executeOneWaySync, hact, execOneWayLoop,
        CancelToken.cancel, CancelToken.isCancelled]

/-- Witness for `C10_flag_never_reset` on a one-entry diff. -/
theorem C10_flag_never_reset_witness :
    (executeSyncCmd
        [⟨"a.flac", .Add, .SourceToTarget, some 5, none, none, none,
          some 10, none⟩]
        (fun _ => .ok ())
        (fun _ => ((CancelToken.new).cancel).isCancelled)).1.acts = [] ∧
    (executeSyncCmd
        [⟨"a.flac", .Add, .SourceToTarget, some 5, none, none, none,
          some 10, none⟩]
        (fun _ => .ok ())
        (fun _ => ((CancelToken.new).cancel).isCancelled)).2 = false := by
  have h := C10_flag_never_reset CancelToken.new
    [⟨"a.flac", .Add, .SourceToTarget, some 5, none, none, none,
      some 10, none⟩]
    (fun _ => .ok ()) (by decide)
  exact ⟨h.2.2.2.1, h.2.2.2.2⟩

/-- C7 as stated is false in one detail: the sidecar temp file is built
with `dst.with_extension("tmp_sync")`, which replaces the destination's
extension, so for `track.flac` the temp file is `track.tmp_sync` — not
`track.flac.tmp_sync` as the name `<dst>.tmp_sync` asserts. -/
theorem C7_counterexample :
    copyFileSafe [] "song.mp3" "track.flac" =
      [.ensureParent "track.flac",
       .copyFull "song.mp3" "track.tmp_sync",
       .fsync "track.tmp_sync",
       .rename "track.tmp_sync" "track.flac",
       .setMtimeFromSrc "song.mp3" "track.flac"] ∧
    tmpPath "track.flac" ≠ "track.flac" ++ ".tmp_sync" := by
  exact ⟨by decide, by decide⟩

theorem copyTail_states (src dst : String)
    (h1 : tmpPath dst ≠ dst) (h2 : tmpPath dst ≠ src) :
    ∀ (interims : List String) (fs : FsState) (o n : Option String),
      fs dst = o → fs src = n →
      ∀ st ∈ traceStates fs
        ((interims.map (FsOp.writeInterim (tmpPath dst))) ++
         [FsOp.copyFull src (tmpPath dst), FsOp.fsync (tmpPath dst),
          FsOp.rename (tmpPath dst) dst, FsOp.setMtimeFromSrc src dst]),
        st dst = o ∨ st dst = n := by
  have hdt : ¬dst = tmpPath dst := fun h => h1 h.symm
  have hsrc : ¬src = tmpPath dst := fun h => h2 h.symm
  intro interims
  induction interims with
  | nil =>
    intro fs o n ho hn st hst
    simp only [List.map_nil, List.nil_append, traceStates, applyOp,
      List.mem_cons, List.mem_singleton] at hst
    rcases hst with rfl | rfl | rfl | rfl | rfl | h
    · exact Or.inl ho
    · left; simpa [hdt] using ho
    · left; simpa [hdt] using ho
    · right; simpa [hdt, hsrc] using hn
    · right; simpa [hdt, hsrc] using hn
    · exact absurd h (List.not_mem_nil st)
  | cons i is ih =>
    intro fs o n ho hn st hst
    simp only [List.map_cons, List.cons_append, traceStates,
      List.mem_cons] at hst
    rcases hst with rfl | hst
    · exact Or.inl ho
    · exact ih (applyOp fs (.writeInterim (tmpPath dst) i)) o n
        (by simpa [applyOp, hdt] using ho)
        (by simpa [applyOp, hsrc] using hn) st hst

/-- C7 (amended): Add/Update writes run exactly the sequence: ensure the
destination's parent directories, copy the source to the sidecar temp file
at `dst.with_extension("tmp_sync")`, fsync the temp file, rename it onto
the destination, and set the destination's mtime to the source's; at every
observable moment — including arbitrarily many partially-copied states of
the temp file — the destination path holds either its old bytes or the
source's bytes, never a mixture. -/
theorem C7_atomic_write (interims : List String) (src dst : String)
    (h1 : tmpPath dst ≠ dst) (h2 : tmpPath dst ≠ src) :
    copyFileSafe interims src dst =
      FsOp.ensureParent dst ::
        (interims.map (FsOp.writeInterim (tmpPath dst))) ++
        [FsOp.copyFull src (tmpPath dst), FsOp.fsync (tmpPath dst),
         FsOp.rename (tmpPath dst) dst, FsOp.setMtimeFromSrc src dst] ∧
    ∀ (fs0 st : FsState),
      st ∈ traceStates fs0 (copyFileSafe interims src dst) →
      st dst = fs0 dst ∨ st dst = fs0 src := by
  refine ⟨rfl, ?_⟩
  intro fs0 st hst
  have hexp : traceStates fs0 (copyFileSafe interims src dst) =
      fs0 :: traceStates fs0
        ((interims.map (FsOp.writeInterim (tmpPath dst))) ++
         [FsOp.copyFull src (tmpPath dst), FsOp.fsync (tmpPath dst),
          FsOp.rename (tmpPath dst) dst, FsOp.setMtimeFromSrc src dst]) := rfl
  rw [hexp, List.mem_cons] at hst
  rcases hst with rfl | hst
  · exact Or.inl rfl
  · exact copyTail_states src dst h1 h2 interims fs0 (fs0 dst) (fs0 src)
      rfl rfl st hst

/-- Witness for `C7_atomic_write` at `track.flac` with one partial state. -/
theorem C7_atomic_write_witness :
    copyFileSafe ["pa"] "song.mp3" "track.flac" =
      FsOp.ensureParent "track.flac" ::
        ((["pa"] : List String).map
          (FsOp.writeInterim (tmpPath "track.flac"))) ++
        [FsOp.copyFull "song.mp3" (tmpPath "track.flac"),
         FsOp.fsync (tmpPath "track.flac"),
         FsOp.rename (tmpPath "track.flac") "track.flac",
         FsOp.setMtimeFromSrc "song.mp3" "track.flac"] ∧
    ∀ (fs0 st : FsState),
      st ∈ traceStates fs0 (copyFileSafe ["pa"] "song.mp3" "track.flac") →
      st "track.flac" = fs0 "track.flac" ∨ st "track.flac" = fs0 "song.mp3" :=
  C7_atomic_write ["pa"] "song.mp3" "track.flac" (by decide) (by decide)

theorem device_foldl_cache (lib : List (String × Track))
    (dev : List (String × DeviceFileInfo))
    (cache : List (String × CachedFileHash)) (hl hd : String → String) :
    ∀ (keys : List String) (acc : DiffResult × List CachedFileHash),
      (keys.foldl (deviceStep lib dev cache hl hd) acc).2 =
        acc.2 ++ keys.filterMap (fun rel =>
          (deviceKey hl hd cache rel (lib.lookup rel) (dev.lookup rel)).bind
            (·.2.1))
  | [], acc => by simp
  | x :: xs, acc => by
    rw [List.foldl_cons, device_foldl_cache lib dev cache hl hd xs]
    cases h : deviceKey hl hd cache x (lib.lookup x) (dev.lookup x) with
    | none => simp [deviceStep, h]
    | some v =>
      cases hv : v.2.1 with
      | none =>
        have : v = (v.1, none, v.2.2) := by
          cases v with
          | mk a b => cases b with
            | mk p q => simp at hv; simp [hv]
        rw [this] at h
        simp [deviceStep, h]
      | some c =>
        have : v = (v.1, some c, v.2.2) := by
          cases v with
          | mk a b => cases b with
            | mk p q => simp at hv; simp [hv]
        rw [this] at h
        simp [deviceStep, h]

theorem device_foldl_entries (lib : List (String × Track))
    (dev : List (String × DeviceFileInfo))
    (cache : List (String × CachedFileHash)) (hl hd : String → String) :
    ∀ (keys : List String) (acc : DiffResult × List CachedFileHash),
      (keys.foldl (deviceStep lib dev cache hl hd) acc).1.entries =
        acc.1.entries ++ keys.filterMap (fun rel =>
          (deviceKey hl hd cache rel (lib.lookup rel) (dev.lookup rel)).map
            (·.1))
  | [], acc => by simp
  | x :: xs, acc => by
    rw [List.foldl_cons, device_foldl_entries lib dev cache hl hd xs]
    cases h : deviceKey hl hd cache x (lib.lookup x) (dev.lookup x) with
    | none => simp [deviceStep, h]
    | some v => simp [deviceStep, h]

theorem deviceKey_rel_fields (hl hd : String → String)
    (cache : List (String × CachedFileHash)) (rel : String) :
    ∀ (tk : Option Track) (dv : Option DeviceFileInfo) (v : _),
      deviceKey hl hd cache rel tk dv = some v →
      v.1.relative_path = rel ∧ ∀ c, v.2.1 = some c → c.relative_path = rel
  | some t, none, v => by
    intro h
    simp [deviceKey] at h
    constructor
    · rw [← h]
    · intro c hc; rw [← h] at hc; simp at hc
  | none, some d, v => by
    intro h
    simp [deviceKey] at h
    constructor
    · rw [← h]
    · intro c hc; rw [← h] at hc; simp at hc
  | some t, some d, v => by
    intro h
    simp only [deviceKey] at h
    split at h
    · constructor
      · rw [← Option.some_inj.mp h]
      · intro c hc; rw [← Option.some_inj.mp h] at hc
        simp at hc; rw [← hc]
    · split at h <;>
        (constructor
         · rw [← Option.some_inj.mp h]
         · intro c hc; rw [← Option.some_inj.mp h] at hc
           simp at hc; rw [← hc])
  | none, none, v => by intro h; simp [deviceKey] at h

theorem deviceKey_dev_present (hl hd : String → String)
    (cache : List (String × CachedFileHash)) (rel : String)
    (tk : Option Track) (d : DeviceFileInfo) :
    ∀ v, deviceKey hl hd cache rel tk (some d) = some v →
      ((tk = none → v.1.action = .Remove ∧ v.2.1 = none) ∧
       (tk.isSome → v.1.action ≠ .Remove ∧ v.2.1.isSome)) := by
  intro v h
  cases tk with
  | none =>
    simp [deviceKey] at h
    constructor
    · intro _; rw [← h]; exact ⟨rfl, rfl⟩
    · intro hs; simp at hs
  | some t =>
    constructor
    · intro hn; exact absurd hn (by simp)
    · intro _
      simp only [deviceKey] at h
      split at h
      · rw [← Option.some_inj.mp h]; exact ⟨by simp, by simp⟩
      · split at h <;>
          (rw [← Option.some_inj.mp h]; exact ⟨by simp, by simp⟩)

/-- C6: in the device diff, a cached entry whose `(size, mtime)` match the
live device file supplies the device-side hash — the result does not
depend on the device hasher at all, the resolved target hash is the cached
hash, and the re-emitted cache entry carries it; an Unchanged path decided
by the `(size, mtime)` shortcut re-emits the prior cached hash (empty
string when absent) without hashing either side; and the emitted cache has
an entry for an observed device-side path exactly when that path's diff
entry is not a Remove. -/
theorem C6_device_cache :
    (∀ (hl hd hd' : String → String)
        (cache : List (String × CachedFileHash)) (rel : String)
        (track : Track) (dev : DeviceFileInfo) (c : CachedFileHash),
      cache.lookup rel = some c → c.file_size = dev.size →
      c.modified_at = dev.modified →
      deviceKey hl hd cache rel (some track) (some dev) =
        deviceKey hl hd' cache rel (some track) (some dev)) ∧
    (∀ (hl hd : String → String) (cache : List (String × CachedFileHash))
        (rel : String) (track : Track) (dev : DeviceFileInfo)
        (c : CachedFileHash),
      cache.lookup rel = some c → c.file_size = dev.size →
      c.modified_at = dev.modified →
      ((deviceKey hl hd cache rel (some track) (some dev)).bind (·.2.1)) =
          some { relative_path := rel, hash := c.hash, file_size := dev.size,
                 modified_at := dev.modified } ∧
        (¬(track.file_size = dev.size ∧ track.modified_at = dev.modified) →
          ((deviceKey hl hd cache rel (some track) (some dev)).map
            (·.1.target_hash)) = some (some c.hash))) ∧
    (∀ (hl hd hl' hd' : String → String)
        (cache : List (String × CachedFileHash)) (rel : String)
        (track : Track) (dev : DeviceFileInfo),
      track.file_size = dev.size → track.modified_at = dev.modified →
      deviceKey hl hd cache rel (some track) (some dev) =
        some
          ({ relative_path := rel, action := .Unchanged
             direction := .SourceToTarget
             source_size := some track.file_size, target_size := some dev.size
             source_hash := none, target_hash := none
             source_modified := some track.modified_at
             target_modified := some dev.modified },
            some { relative_path := rel
                   hash := (((cache.lookup rel).map (·.hash)).getD "")
                   file_size := dev.size, modified_at := dev.modified }, 0) ∧
      deviceKey hl hd cache rel (some track) (some dev) =
        deviceKey hl' hd' cache rel (some track) (some dev)) ∧
    (∀ (device_id : String) (keys : List String)
        (lib : List (String × Track)) (dev : List (String × DeviceFileInfo))
        (cache : List (String × CachedFileHash)) (hl hd : String → String)
        (rel : String),
      rel ∈ keys → (dev.lookup rel).isSome →
      ((∃ c ∈ (computeDeviceDiff device_id keys lib dev cache hl hd).2,
          c.relative_path = rel) ↔
        ¬(∃ e ∈ (computeDeviceDiff device_id keys lib dev cache hl hd).1.entries,
            e.relative_path = rel ∧ e.action = .Remove))) := by
  refine ⟨?_, ?_, ?_, ?_⟩
  · intro hl hd hd' cache rel track dev c hc hsz hmt
    simp only [deviceKey, hc, hsz, hmt]
    split
    · rfl
    · simp
  · intro hl hd cache rel track dev c hc hsz hmt
    constructor
    · simp only [deviceKey, hc, hsz, hmt]
      split
      · simp [hc]
      · simp only [and_self, if_true]
        split <;> simp
    · intro hne
      simp only [deviceKey, hc, hsz, hmt]
      rw [if_neg hne]
      simp only [and_self, if_true]
      split <;> simp
  · intro hl hd hl' hd' cache rel track dev h1 h2
    constructor
    · simp [deviceKey, h1, h2]
    · simp [deviceKey, h1, h2]
  · intro device_id keys lib dev cache hl hd rel hmem hdev
    obtain ⟨d, hd'⟩ := Option.isSome_iff_exists.mp hdev
    have hcache : (computeDeviceDiff device_id keys lib dev cache hl hd).2 =
        keys.filterMap (fun r =>
          (deviceKey hl hd cache r (lib.lookup r) (dev.lookup r)).bind
            (·.2.1)) := by
      have h := device_foldl_cache lib dev cache hl hd keys
        ({ profile_id := device_id, entries := [], total_add := 0,
           total_remove := 0, total_update := 0, total_conflict := 0,
           total_unchanged := 0, bytes_to_transfer := 0 }, [])
      simpa [computeDeviceDiff] using h
    have hperm : List.Perm
        (computeDeviceDiff device_id keys lib dev cache hl hd).1.entries
        (keys.filterMap (fun r =>
          (deviceKey hl hd cache r (lib.lookup r) (dev.lookup r)).map
            (·.1))) := by
      have h := device_foldl_entries lib dev cache hl hd keys
        ({ profile_id := device_id, entries := [], total_add := 0,
           total_remove := 0, total_update := 0, total_conflict := 0,
           total_unchanged := 0, bytes_to_transfer := 0 }, [])
      have h2 : (computeDeviceDiff device_id keys lib dev cache hl hd).1.entries =
          sortByPath (keys.filterMap (fun r =>
            (deviceKey hl hd cache r (lib.lookup r) (dev.lookup r)).map
              (·.1))) := by
        simp only [computeDeviceDiff]
        rw [h]
        simp
      rw [h2]
      exact sortByPath_perm _
    rw [hcache]
    cases hrow : deviceKey hl hd cache rel (lib.lookup rel) (dev.lookup rel) with
    | none =>
      rw [hd'] at hrow
      cases htk : lib.lookup rel with
      | none => rw [htk] at hrow; simp [deviceKey] at hrow
      | some t =>
        rw [htk] at hrow
        simp only [deviceKey] at hrow
        split at hrow
        · simp at hrow
        · split at hrow <;> simp at hrow
    | some v =>
      have hfields := deviceKey_rel_fields hl hd cache rel
        (lib.lookup rel) (dev.lookup rel) v hrow
      have hpresent := deviceKey_dev_present hl hd cache rel
        (lib.lookup rel) d v (by rwa [hd'] at hrow)
      cases htk : lib.lookup rel with
      | none =>
        have hrem := hpresent.1 htk
        constructor
        · intro ⟨c, hcmem, hcrel⟩
          exfalso
          obtain ⟨r, hrmem, hr⟩ := List.mem_filterMap.mp hcmem
          cases hrr : deviceKey hl hd cache r (lib.lookup r) (dev.lookup r) with
          | none => rw [hrr] at hr; simp at hr
          | some w =>
            rw [hrr] at hr; simp at hr
            have := (deviceKey_rel_fields hl hd cache r _ _ w hrr).2 c hr
            rw [← this, hcrel] at hrr
            rw [hrow] at hrr
            have hveq : v = w := Option.some_inj.mp hrr
            rw [← hveq] at hr
            rw [hrem.2] at hr
            simp at hr
        · intro hnone
          exfalso
          apply hnone
          refine ⟨v.1, ?_, hfields.1, hrem.1⟩
          exact (hperm.mem_iff).mpr
            (List.mem_filterMap.mpr ⟨rel, hmem, by rw [hrow]; rfl⟩)
      | some t =>
        have hkeep := hpresent.2 (by rw [htk]; rfl)
        constructor
        · intro _
          intro ⟨e, hemem, herel, heact⟩
          obtain ⟨r, hrmem, hr⟩ :=
            List.mem_filterMap.mp ((hperm.mem_iff).mp hemem)
          cases hrr : deviceKey hl hd cache r (lib.lookup r) (dev.lookup r) with
          | none => rw [hrr] at hr; simp at hr
          | some w =>
            rw [hrr] at hr; simp at hr
            have hwrel := (deviceKey_rel_fields hl hd cache r _ _ w hrr).1
            rw [← hr] at herel heact
            rw [hwrel] at herel
            rw [herel] at hrr
            rw [hrow] at hrr
            have hveq : v = w := Option.some_inj.mp hrr
            rw [← hveq] at heact
            exact hkeep.1 heact
        · intro _
          obtain ⟨c, hcsome⟩ := Option.isSome_iff_exists.mp hkeep.2
          refine ⟨c, ?_, (hfields.2 c hcsome)⟩
          refine List.mem_filterMap.mpr ⟨rel, hmem, ?_⟩
          rw [hrow]
          simpa using hcsome

/-- Witness for `C6_device_cache`: a cached hash with matching size/mtime
is reused for `t.flac`, and the emitted cache of a two-path device diff
keeps the compared path but not the removed one. -/
theorem C6_device_cache_witness :
    ((deviceKey (fun _ => "L") (fun _ => "D")
        [("t.flac", ⟨"t.flac", "cachedH", 9, 7⟩)] "t.flac"
        (some ⟨"t.flac", "/lib/t.flac", 5, 3, some "srcH"⟩)
        (some ⟨9, 7⟩)).bind (·.2.1)) =
      some { relative_path := "t.flac", hash := "cachedH", file_size := 9,
             modified_at := 7 } ∧
    ((deviceKey (fun _ => "L") (fun _ => "D")
        [("t.flac", ⟨"t.flac", "cachedH", 9, 7⟩)] "t.flac"
        (some ⟨"t.flac", "/lib/t.flac", 5, 3, some "srcH"⟩)
        (some ⟨9, 7⟩)).map (·.1.target_hash)) = some (some "cachedH") ∧
    ((∃ c ∈ (computeDeviceDiff "dev1" ["t.flac", "gone.mp3"]
        [("t.flac", ⟨"t.flac", "/lib/t.flac", 5, 3, some "srcH"⟩)]
        [("t.flac", ⟨9, 7⟩), ("gone.mp3", ⟨4, 2⟩)]
        [("t.flac", ⟨"t.flac", "cachedH", 9, 7⟩)]
        (fun _ => "L") (fun _ => "D")).2, c.relative_path = "gone.mp3") ↔
      ¬(∃ e ∈ (computeDeviceDiff "dev1" ["t.flac", "gone.mp3"]
          [("t.flac", ⟨"t.flac", "/lib/t.flac", 5, 3, some "srcH"⟩)]
          [("t.flac", ⟨9, 7⟩), ("gone.mp3", ⟨4, 2⟩)]
          [("t.flac", ⟨"t.flac", "cachedH", 9, 7⟩)]
          (fun _ => "L") (fun _ => "D")).1.entries,
          e.relative_path = "gone.mp3" ∧ e.action = .Remove)) := by
  refine ⟨?_, ?_, ?_⟩
  · exact (C6_device_cache.2.1 (fun _ => "L") (fun _ => "D")
      [("t.flac", ⟨"t.flac", "cachedH", 9, 7⟩)] "t.flac"
      ⟨"t.flac", "/lib/t.flac", 5, 3, some "srcH"⟩ ⟨9, 7⟩
      ⟨"t.flac", "cachedH", 9, 7⟩ (by decide) rfl rfl).1
  · exact (C6_device_cache.2.1 (fun _ => "L") (fun _ => "D")
      [("t.flac", ⟨"t.flac", "cachedH", 9, 7⟩)] "t.flac"
      ⟨"t.flac", "/lib/t.flac", 5, 3, some "srcH"⟩ ⟨9, 7⟩
      ⟨"t.flac", "cachedH", 9, 7⟩ (by decide) rfl rfl).2 (by decide)
  · exact C6_device_cache.2.2.2 "dev1" ["t.flac", "gone.mp3"]
      [("t.flac", ⟨"t.flac", "/lib/t.flac", 5, 3, some "srcH"⟩)]
      [("t.flac", ⟨9, 7⟩), ("gone.mp3", ⟨4, 2⟩)]
      [("t.flac", ⟨"t.flac", "cachedH", 9, 7⟩)]
      (fun _ => "L") (fun _ => "D") "gone.mp3" (by decide) (by decide)

theorem lookup_filter_ne {α : Type} (k k' : String) (hne : k' ≠ k) :
    ∀ (m : List (String × α)),
      (m.filter (fun p => p.1 ≠ k)).lookup k' = m.lookup k' := by
  intro m
  induction m with
  | nil => rfl
  | cons p m ih =>
    obtain ⟨a, b⟩ := p
    simp only [ne_eq, decide_not] at ih
    by_cases hak : a = k
    · have h3 : (k' == k) = false := by simpa using hne
      subst hak
      simp [List.filter_cons, List.lookup, h3, ih]
    · by_cases hka : k' = a
      · subst hka
        simp [List.filter_cons, hak, List.lookup]
      · have h1 : (k' == a) = false := by simpa using hka
        simp [List.filter_cons, hak, List.lookup, h1, ih]

theorem upsert_lookup_self {α : Type} (m : List (String × α)) (k : String)
    (v : α) : (upsert m k v).lookup k = some v := by
  simp [upsert, List.lookup]

theorem upsert_lookup_ne {α : Type} (m : List (String × α)) (k k' : String)
    (v : α) (h : k' ≠ k) : (upsert m k v).lookup k' = m.lookup k' := by
  have h1 : (k' == k) = false := by simpa using h
  have hl := lookup_filter_ne k k' h m
  simp only [ne_eq, decide_not] at hl
  simp [upsert, List.lookup, h1, hl]

theorem eraseKey_lookup_self (m : Drive) (k : String) :
    (eraseKey m k).lookup k = none := by
  induction m with
  | nil => rfl
  | cons p m ih =>
    obtain ⟨a, b⟩ := p
    by_cases hak : a = k
    · subst hak; simpa [eraseKey, List.filter_cons] using ih
    · have h1 : (k == a) = false := by simpa using fun h => hak h.symm
      simpa [eraseKey, List.filter_cons, hak, List.lookup, h1] using ih

theorem eraseKey_lookup_ne (m : Drive) (k k' : String) (h : k' ≠ k) :
    (eraseKey m k).lookup k' = m.lookup k' :=
  lookup_filter_ne k k' h m

theorem collectInfos_lookup (d : Drive) (r : String) :
    (collectInfos d).lookup r = (d.lookup r).map infoOf := by
  induction d with
  | nil => rfl
  | cons p d ih =>
    obtain ⟨a, b⟩ := p
    by_cases hra : r = a
    · subst hra; simp [collectInfos, List.lookup]
    · have h1 : (r == a) = false := by simpa using hra
      simpa [collectInfos, List.lookup, h1] using ih

theorem applyEntryFs_lookup_ne (src tgt : Drive) (e : DiffEntry) (r : String)
    (h : r ≠ e.relative_path) :
    (applyEntryFs src tgt e).lookup r = tgt.lookup r := by
  cases ha : e.action with
  | Add =>
    simp only [applyEntryFs, ha]
    cases src.lookup e.relative_path with
    | none => rfl
    | some f => exact upsert_lookup_ne tgt e.relative_path r _ h
  | Update =>
    simp only [applyEntryFs, ha]
    cases src.lookup e.relative_path with
    | none => rfl
    | some f => exact upsert_lookup_ne tgt e.relative_path r _ h
  | Remove =>
    simp only [applyEntryFs, ha]
    exact eraseKey_lookup_ne tgt e.relative_path r h
  | Unchanged => simp [applyEntryFs, ha]
  | Conflict => simp [applyEntryFs, ha]

theorem applyEntryFs_lookup_self (src tgt : Drive) (e : DiffEntry) :
    (applyEntryFs src tgt e).lookup e.relative_path =
      entryEffect src (tgt.lookup e.relative_path) e := by
  cases ha : e.action with
  | Add =>
    simp only [applyEntryFs, entryEffect, ha]
    cases src.lookup e.relative_path with
    | none => rfl
    | some f => exact upsert_lookup_self tgt e.relative_path _
  | Update =>
    simp only [applyEntryFs, entryEffect, ha]
    cases src.lookup e.relative_path with
    | none => rfl
    | some f => exact upsert_lookup_self tgt e.relative_path _
  | Remove =>
    simp only [applyEntryFs, entryEffect, ha]
    exact eraseKey_lookup_self tgt e.relative_path
  | Unchanged => simp [applyEntryFs, entryEffect, ha]
  | Conflict => simp [applyEntryFs, entryEffect, ha]

theorem executeOneWayFs_lookup_notmem (src : Drive) :
    ∀ (es : List DiffEntry) (tgt : Drive) (r : String),
      (∀ e ∈ es, e.relative_path ≠ r) →
      (executeOneWayFs src tgt es).lookup r = tgt.lookup r
  | [], tgt, r, _ => rfl
  | e :: es, tgt, r, h => by
    have hstep : (executeOneWayFs src tgt (e :: es)) =
        executeOneWayFs src (applyEntryFs src tgt e) es := rfl
    rw [hstep, executeOneWayFs_lookup_notmem src es _ r
      (fun x hx => h x (List.mem_cons_of_mem e hx))]
    exact applyEntryFs_lookup_ne src tgt e r
      (fun hr => h e (List.mem_cons_self e es) hr.symm)

theorem executeOneWayFs_lookup_found (src : Drive) :
    ∀ (es : List DiffEntry) (tgt : Drive) (r : String) (x : DiffEntry),
      (es.map (·.relative_path)).Nodup → x ∈ es → x.relative_path = r →
      (executeOneWayFs src tgt es).lookup r =
        entryEffect src (tgt.lookup r) x
  | [], tgt, r, x, _, hx, _ => absurd hx (List.not_mem_nil x)
  | e :: es, tgt, r, x, hnd, hx, hxr => by
    have hstep : (executeOneWayFs src tgt (e :: es)) =
        executeOneWayFs src (applyEntryFs src tgt e) es := rfl
    rcases List.mem_cons.mp hx with rfl | hmem
    · rw [hstep]
      have hrest : ∀ y ∈ es, y.relative_path ≠ r := by
        intro y hy hyr
        have : x.relative_path ∈ es.map (·.relative_path) := by
          rw [hxr, ← hyr]; exact List.mem_map_of_mem _ hy
        exact (List.nodup_cons.mp hnd).1 this
      rw [executeOneWayFs_lookup_notmem src es _ r hrest, ← hxr]
      exact applyEntryFs_lookup_self src tgt x
    · have hne : e.relative_path ≠ r := by
        intro her
        have : x.relative_path ∈ es.map (·.relative_path) :=
          List.mem_map_of_mem _ hmem
        rw [hxr, ← her] at this
        exact (List.nodup_cons.mp hnd).1 this
      rw [hstep, executeOneWayFs_lookup_found src es _ r x
        (List.nodup_cons.mp hnd).2 hmem hxr]
      rw [applyEntryFs_lookup_ne src tgt e r (fun h => hne h.symm)]

theorem lookup_isSome_iff_mem {α : Type} :
    ∀ (m : List (String × α)) (k : String),
      (m.lookup k).isSome = true ↔ k ∈ m.map Prod.fst
  | [], k => by simp [List.lookup]
  | (a, b) :: m, k => by
    by_cases hka : k = a
    · subst hka; simp [List.lookup]
    · have h1 : (k == a) = false := by simpa using hka
      simp [List.lookup, h1, hka, lookup_isSome_iff_mem m k]

theorem oneWayKey_path (hs ht : String → String) (r : String) :
    ∀ (si ti : Option FileInfo) (e : DiffEntry) (b : Nat),
      oneWayKey hs ht r si ti = some (e, b) → e.relative_path = r
  | some s, none, e, b => by
    intro h
    simp only [oneWayKey, Option.some_inj, Prod.mk.injEq] at h
    rw [← h.1]
  | none, some t, e, b => by
    intro h
    simp only [oneWayKey, Option.some_inj, Prod.mk.injEq] at h
    rw [← h.1]
  | some s, some t, e, b => by
    intro h
    simp only [oneWayKey] at h
    split at h
    · simp only [Option.some_inj, Prod.mk.injEq] at h
      rw [← h.1]
    · split at h <;>
        (simp only [Option.some_inj, Prod.mk.injEq] at h; rw [← h.1])
  | none, none, e, b => by intro h; simp [oneWayKey] at h

theorem rows_paths_sublist (f : String → Option (DiffEntry × Nat))
    (hf : ∀ r e b, f r = some (e, b) → e.relative_path = r) :
    ∀ keys : List String,
      List.Sublist ((keys.filterMap f).map (fun p => p.1.relative_path)) keys
  | [] => List.Sublist.refl []
  | k :: ks => by
    cases h : f k with
    | none =>
      simp only [List.filterMap_cons, h]
      exact (rows_paths_sublist f hf ks).cons k
    | some eb =>
      simp only [List.filterMap_cons, h, List.map_cons]
      rw [hf k eb.1 eb.2 (by rw [h])]
      exact (rows_paths_sublist f hf ks).cons₂ k

theorem oneWay_exec_lookup
    (src tgt : Drive) (hf : String → String) (pid : String)
    (keys1 : List String) (hk1nodup : keys1.Nodup)
    (hk1 : ∀ r, r ∈ keys1 ↔ (src.lookup r).isSome ∨ (tgt.lookup r).isSome) :
    ∀ r : String,
      (src.lookup r = none →
        (executeOneWayFs src tgt
          (oneWayDiffOfDrives pid keys1 src tgt hf).entries).lookup r =
            none) ∧
      (∀ f : LiveFile, src.lookup r = some f →
        ∃ t' : LiveFile,
          (executeOneWayFs src tgt
            (oneWayDiffOfDrives pid keys1 src tgt hf).entries).lookup r =
              some t' ∧
          ((t'.content.length = f.content.length ∧ t'.mtime = f.mtime) ∨
            hf t'.content = hf f.content)) := by
  intro r
  have hpathf : ∀ r' e b,
      oneWayKey (hashOn hf src) (hashOn hf tgt) r'
        ((collectInfos src).lookup r') ((collectInfos tgt).lookup r') =
          some (e, b) →
      e.relative_path = r' :=
    fun r' e b h => oneWayKey_path _ _ r' _ _ e b h
  have hes : (oneWayDiffOfDrives pid keys1 src tgt hf).entries =
      sortByPath ((keys1.filterMap (fun r' =>
        oneWayKey (hashOn hf src) (hashOn hf tgt) r'
          ((collectInfos src).lookup r')
          ((collectInfos tgt).lookup r'))).map (·.1)) :=
    computeOneWayDiff_entries pid keys1 (collectInfos src) (collectInfos tgt)
      (hashOn hf src) (hashOn hf tgt)
  have hperm : List.Perm (oneWayDiffOfDrives pid keys1 src tgt hf).entries
      ((keys1.filterMap (fun r' =>
        oneWayKey (hashOn hf src) (hashOn hf tgt) r'
          ((collectInfos src).lookup r')
          ((collectInfos tgt).lookup r'))).map (·.1)) := by
    rw [hes]; exact sortByPath_perm _
  have hnodup : (((oneWayDiffOfDrives pid keys1 src tgt hf).entries).map
      (·.relative_path)).Nodup := by
    have hsub := rows_paths_sublist _ hpathf keys1
    have h1 : ((keys1.filterMap (fun r' =>
        oneWayKey (hashOn hf src) (hashOn hf tgt) r'
          ((collectInfos src).lookup r')
          ((collectInfos tgt).lookup r'))).map
          (fun p => p.1.relative_path)).Nodup := hk1nodup.sublist hsub
    have h2 := (hperm.map (·.relative_path)).nodup_iff
    rw [h2, List.map_map]
    exact h1
  have hmem : ∀ e b r', r' ∈ keys1 →
      oneWayKey (hashOn hf src) (hashOn hf tgt) r'
        ((collectInfos src).lookup r') ((collectInfos tgt).lookup r') =
          some (e, b) →
      e ∈ (oneWayDiffOfDrives pid keys1 src tgt hf).entries := by
    intro e b r' hr' hrow
    exact hperm.mem_iff.mpr (List.mem_map.mpr
      ⟨(e, b), List.mem_filterMap.mpr ⟨r', hr', hrow⟩, rfl⟩)
  constructor
  · intro hsrc
    cases htgt : tgt.lookup r with
    | none =>
      have hnk : r ∉ keys1 := by
        rw [hk1]; simp [hsrc, htgt]
      have hnone : ∀ e ∈ (oneWayDiffOfDrives pid keys1 src tgt hf).entries,
          e.relative_path ≠ r := by
        intro e he her
        obtain ⟨p, hp, hpe⟩ := List.mem_map.mp (hperm.mem_iff.mp he)
        obtain ⟨r', hr', hrow⟩ := List.mem_filterMap.mp hp
        have := hpathf r' p.1 p.2 hrow
        rw [hpe, her] at this
        exact hnk (this ▸ hr')
      rw [executeOneWayFs_lookup_notmem src _ tgt r hnone, htgt]
    | some g =>
      have hk : r ∈ keys1 := (hk1 r).mpr (Or.inr (by simp [htgt]))
      have hrow : oneWayKey (hashOn hf src) (hashOn hf tgt) r
          ((collectInfos src).lookup r) ((collectInfos tgt).lookup r) =
          some
            ({ relative_path := r, action := .Remove
               direction := .SourceToTarget
               source_size := none, target_size := some (infoOf g).size
               source_hash := none, target_hash := none
               source_modified := none
               target_modified := some (infoOf g).modified }, 0) := by
        rw [collectInfos_lookup, collectInfos_lookup, hsrc, htgt]
        rfl
      have he := hmem _ _ r hk hrow
      rw [executeOneWayFs_lookup_found src _ tgt r _ hnodup he rfl]
      rfl
  · intro f hsome
    cases htgt : tgt.lookup r with
    | none =>
      have hk : r ∈ keys1 := (hk1 r).mpr (Or.inl (by simp [hsome]))
      have hrow : oneWayKey (hashOn hf src) (hashOn hf tgt) r
          ((collectInfos src).lookup r) ((collectInfos tgt).lookup r) =
          some
            ({ relative_path := r, action := .Add
               direction := .SourceToTarget
               source_size := some (infoOf f).size, target_size := none
               source_hash := some
                 (computeHashIfNeeded (hashOn hf src) r (infoOf f)).1
               target_hash := none
               source_modified := some (infoOf f).modified
               target_modified := none }, (infoOf f).size) := by
        rw [collectInfos_lookup, collectInfos_lookup, hsome, htgt]
        rfl
      have he := hmem _ _ r hk hrow
      rw [executeOneWayFs_lookup_found src _ tgt r _ hnodup he rfl]
      refine ⟨{ content := f.content, mtime := f.mtime }, ?_, Or.inr rfl⟩
      simp [entryEffect, hsome]
    | some g =>
      have hk : r ∈ keys1 := (hk1 r).mpr (Or.inl (by simp [hsome]))
      by_cases hcond : f.content.length = g.content.length ∧
          f.mtime = g.mtime
      · have hrow : oneWayKey (hashOn hf src) (hashOn hf tgt) r
            ((collectInfos src).lookup r) ((collectInfos tgt).lookup r) =
            some
              ({ relative_path := r, action := .Unchanged
                 direction := .SourceToTarget
                 source_size := some f.content.length
                 target_size := some g.content.length
                 source_hash := none, target_hash := none
                 source_modified := some f.mtime
                 target_modified := some g.mtime }, 0) := by
          rw [collectInfos_lookup, collectInfos_lookup, hsome, htgt]
          show oneWayKey (hashOn hf src) (hashOn hf tgt) r
            (some (infoOf f)) (some (infoOf g)) = _
          simp only [oneWayKey, computeHashIfNeeded, infoOf]
          rw [if_pos hcond]
        have he := hmem _ _ r hk hrow
        rw [executeOneWayFs_lookup_found src _ tgt r _ hnodup he rfl]
        refine ⟨g, ?_, Or.inl ⟨hcond.1.symm, hcond.2.symm⟩⟩
        simp [entryEffect, htgt]
      · by_cases hhash : hashOn hf src r = hashOn hf tgt r
        · have hrow : oneWayKey (hashOn hf src) (hashOn hf tgt) r
              ((collectInfos src).lookup r) ((collectInfos tgt).lookup r) =
              some
                ({ relative_path := r, action := .Unchanged
                   direction := .SourceToTarget
                   source_size := some f.content.length
                   target_size := some g.content.length
                   source_hash := some (hashOn hf src r)
                   target_hash := some (hashOn hf tgt r)
                   source_modified := some f.mtime
                   target_modified := some g.mtime }, 0) := by
            rw [collectInfos_lookup, collectInfos_lookup, hsome, htgt]
            show oneWayKey (hashOn hf src) (hashOn hf tgt) r
              (some (infoOf f)) (some (infoOf g)) = _
            simp only [oneWayKey, computeHashIfNeeded, infoOf]
            rw [if_neg hcond, if_pos hhash]
          have he := hmem _ _ r hk hrow
          rw [executeOneWayFs_lookup_found src _ tgt r _ hnodup he rfl]
          refine ⟨g, ?_, Or.inr ?_⟩
          · simp [entryEffect, htgt]
          · have h1 : hashOn hf src r = hf f.content := by
              simp [hashOn, hsome]
            have h2 : hashOn hf tgt r = hf g.content := by
              simp [hashOn, htgt]
            rw [← h1, ← h2]
            exact hhash.symm
        · have hrow : oneWayKey (hashOn hf src) (hashOn hf tgt) r
              ((collectInfos src).lookup r) ((collectInfos tgt).lookup r) =
              some
                ({ relative_path := r, action := .Update
                   direction := .SourceToTarget
                   source_size := some f.content.length
                   target_size := some g.content.length
                   source_hash := some (hashOn hf src r)
                   target_hash := some (hashOn hf tgt r)
                   source_modified := some f.mtime
                   target_modified := some g.mtime },
                f.content.length) := by
            rw [collectInfos_lookup, collectInfos_lookup, hsome, htgt]
            show oneWayKey (hashOn hf src) (hashOn hf tgt) r
              (some (infoOf f)) (some (infoOf g)) = _
            simp only [oneWayKey, computeHashIfNeeded, infoOf]
            rw [if_neg hcond, if_neg hhash]
          have he := hmem _ _ r hk hrow
          rw [executeOneWayFs_lookup_found src _ tgt r _ hnodup he rfl]
          refine ⟨{ content := f.content, mtime := f.mtime }, ?_, Or.inr rfl⟩
          simp [entryEffect, hsome]

theorem computeOneWayDiff_total_add (pid : String) (keys : List String)
    (sf tf : List (String × FileInfo)) (hs ht : String → String) :
    (computeOneWayDiff pid keys sf tf hs ht).total_add =
      (keys.filterMap (fun rel =>
        oneWayKey hs ht rel (sf.lookup rel) (tf.lookup rel))).countP
        (fun p => decide (p.1.action = .Add)) := by
  have h := oneWay_foldl_total_add sf tf hs ht keys
    { profile_id := pid, entries := [], total_add := 0,
      total_remove := 0, total_update := 0, total_conflict := 0,
      total_unchanged := 0, bytes_to_transfer := 0 }
  simpa [computeOneWayDiff] using h

theorem computeOneWayDiff_total_remove (pid : String) (keys : List String)
    (sf tf : List (String × FileInfo)) (hs ht : String → String) :
    (computeOneWayDiff pid keys sf tf hs ht).total_remove =
      (keys.filterMap (fun rel =>
        oneWayKey hs ht rel (sf.lookup rel) (tf.lookup rel))).countP
        (fun p => decide (p.1.action = .Remove)) := by
  have h := oneWay_foldl_total_remove sf tf hs ht keys
    { profile_id := pid, entries := [], total_add := 0,
      total_remove := 0, total_update := 0, total_conflict := 0,
      total_unchanged := 0, bytes_to_transfer := 0 }
  simpa [computeOneWayDiff] using h

theorem computeOneWayDiff_total_update (pid : String) (keys : List String)
    (sf tf : List (String × FileInfo)) (hs ht : String → String) :
    (computeOneWayDiff pid keys sf tf hs ht).total_update =
      (keys.filterMap (fun rel =>
        oneWayKey hs ht rel (sf.lookup rel) (tf.lookup rel))).countP
        (fun p => decide (p.1.action = .Update)) := by
  have h := oneWay_foldl_total_update sf tf hs ht keys
    { profile_id := pid, entries := [], total_add := 0,
      total_remove := 0, total_update := 0, total_conflict := 0,
      total_unchanged := 0, bytes_to_transfer := 0 }
  simpa [computeOneWayDiff] using h

theorem computeOneWayDiff_total_unchanged (pid : String) (keys : List String)
    (sf tf : List (String × FileInfo)) (hs ht : String → String) :
    (computeOneWayDiff pid keys sf tf hs ht).total_unchanged =
      (keys.filterMap (fun rel =>
        oneWayKey hs ht rel (sf.lookup rel) (tf.lookup rel))).countP
        (fun p => decide (p.1.action = .Unchanged)) := by
  have h := oneWay_foldl_total_unchanged sf tf hs ht keys
    { profile_id := pid, entries := [], total_add := 0,
      total_remove := 0, total_update := 0, total_conflict := 0,
      total_unchanged := 0, bytes_to_transfer := 0 }
  simpa [computeOneWayDiff] using h

theorem length_filterMap_of_all_isSome {α β : Type} (f : α → Option β) :
    ∀ l : List α, (∀ a ∈ l, (f a).isSome = true) →
      (l.filterMap f).length = l.length
  | [], _ => rfl
  | a :: l, h => by
    obtain ⟨b, hb⟩ := Option.isSome_iff_exists.mp (h a (List.mem_cons_self a l))
    simp [List.filterMap_cons, hb,
      length_filterMap_of_all_isSome f l
        (fun x hx => h x (List.mem_cons_of_mem a hx))]

/-- C8: after an error-free, uncancelled one-way sync (diff over `keys1`,
then execution of its entries against the target drive), a second one-way
diff of the same source against the updated target reports no adds, no
removes and no updates, and counts every source file as unchanged (each
path matches on size and mtime after the copy set the destination's mtime
to the source's, or on content hash). -/
theorem C8_one_way_convergence
    (pid pid2 : String) (src tgt : Drive) (hf : String → String)
    (keys1 keys2 : List String)
    (hk1nodup : keys1.Nodup)
    (hk1 : ∀ r, r ∈ keys1 ↔
      (src.lookup r).isSome = true ∨ (tgt.lookup r).isSome = true)
    (hsnodup : (src.map Prod.fst).Nodup)
    (hk2nodup : keys2.Nodup)
    (hk2 : ∀ r, r ∈ keys2 ↔
      (src.lookup r).isSome = true ∨
      ((executeOneWayFs src tgt
        (oneWayDiffOfDrives pid keys1 src tgt hf).entries).lookup
          r).isSome = true) :
    (oneWayDiffOfDrives pid2 keys2 src
      (executeOneWayFs src tgt
        (oneWayDiffOfDrives pid keys1 src tgt hf).entries) hf).total_add =
        0 ∧
    (oneWayDiffOfDrives pid2 keys2 src
      (executeOneWayFs src tgt
        (oneWayDiffOfDrives pid keys1 src tgt hf).entries) hf).total_remove =
        0 ∧
    (oneWayDiffOfDrives pid2 keys2 src
      (executeOneWayFs src tgt
        (oneWayDiffOfDrives pid keys1 src tgt hf).entries) hf).total_update =
        0 ∧
    (oneWayDiffOfDrives pid2 keys2 src
      (executeOneWayFs src tgt
        (oneWayDiffOfDrives pid keys1 src tgt hf).entries)
          hf).total_unchanged = src.length := by
  have hL := oneWay_exec_lookup src tgt hf pid keys1 hk1nodup hk1
  have hk2' : ∀ r, r ∈ keys2 ↔ (src.lookup r).isSome = true := by
    intro r
    rw [hk2]
    constructor
    · rintro (h | h)
      · exact h
      · cases hsrc : src.lookup r with
        | some f => rfl
        | none => rw [(hL r).1 hsrc] at h; simp at h
    · exact Or.inl
  have hkey : ∀ r ∈ keys2, ∃ e b,
      oneWayKey (hashOn hf src)
        (hashOn hf (executeOneWayFs src tgt
          (oneWayDiffOfDrives pid keys1 src tgt hf).entries)) r
        ((collectInfos src).lookup r)
        ((collectInfos (executeOneWayFs src tgt
          (oneWayDiffOfDrives pid keys1 src tgt hf).entries)).lookup r) =
        some (e, b) ∧ e.action = .Unchanged := by
    intro r hr
    obtain ⟨f, hsome⟩ :=
      Option.isSome_iff_exists.mp ((hk2' r).mp hr)
    obtain ⟨t', hlook, hP⟩ := (hL r).2 f hsome
    rw [collectInfos_lookup, collectInfos_lookup, hsome, hlook]
    simp only [Option.map_some']
    by_cases hc : f.content.length = t'.content.length ∧ f.mtime = t'.mtime
    · refine ⟨{ relative_path := r, action := .Unchanged,
                direction := .SourceToTarget,
                source_size := some f.content.length,
                target_size := some t'.content.length,
                source_hash := none, target_hash := none,
                source_modified := some f.mtime,
                target_modified := some t'.mtime }, 0, ?_, rfl⟩
      simp only [oneWayKey, computeHashIfNeeded, infoOf]
      rw [if_pos hc]
    · rcases hP with ⟨hlen, hmt⟩ | hhash
      · exact absurd ⟨hlen.symm, hmt.symm⟩ hc
      · have hhash' : hashOn hf src r =
            hashOn hf (executeOneWayFs src tgt
              (oneWayDiffOfDrives pid keys1 src tgt hf).entries) r := by
          have h1 : hashOn hf src r = hf f.content := by
            simp [hashOn, hsome]
          have h2 : hashOn hf (executeOneWayFs src tgt
              (oneWayDiffOfDrives pid keys1 src tgt hf).entries) r =
              hf t'.content := by
            simp [hashOn, hlook]
          rw [h1, h2]
          exact hhash.symm
        refine ⟨{ relative_path := r, action := .Unchanged,
                  direction := .SourceToTarget,
                  source_size := some f.content.length,
                  target_size := some t'.content.length,
                  source_hash := some (hashOn hf src r),
                  target_hash := some (hashOn hf (executeOneWayFs src tgt
                    (oneWayDiffOfDrives pid keys1 src tgt hf).entries) r),
                  source_modified := some f.mtime,
                  target_modified := some t'.mtime }, 0, ?_, rfl⟩
        simp only [oneWayKey, computeHashIfNeeded, infoOf]
        rw [if_neg hc, if_pos hhash']
  have hall : ∀ p ∈ keys2.filterMap (fun r =>
      oneWayKey (hashOn hf src)
        (hashOn hf (executeOneWayFs src tgt
          (oneWayDiffOfDrives pid keys1 src tgt hf).entries)) r
        ((collectInfos src).lookup r)
        ((collectInfos (executeOneWayFs src tgt
          (oneWayDiffOfDrives pid keys1 src tgt hf).entries)).lookup r)),
      p.1.action = .Unchanged := by
    intro p hp
    obtain ⟨r, hr, hrow⟩ := List.mem_filterMap.mp hp
    obtain ⟨e, b, hrow', hact⟩ := hkey r hr
    rw [hrow'] at hrow
    obtain rfl : (e, b) = p := Option.some_inj.mp hrow
    exact hact
  have hlen : (keys2.filterMap (fun r =>
      oneWayKey (hashOn hf src)
        (hashOn hf (executeOneWayFs src tgt
          (oneWayDiffOfDrives pid keys1 src tgt hf).entries)) r
        ((collectInfos src).lookup r)
        ((collectInfos (executeOneWayFs src tgt
          (oneWayDiffOfDrives pid keys1 src tgt hf).entries)).lookup
            r))).length = keys2.length := by
    apply length_filterMap_of_all_isSome
    intro r hr
    obtain ⟨e, b, hrow, _⟩ := hkey r hr
    rw [hrow]
    rfl
  have hk2len : keys2.length = src.length := by
    have hpermk : List.Perm keys2 (src.map Prod.fst) :=
      (List.perm_ext_iff_of_nodup hk2nodup hsnodup).mpr
        (fun r => by rw [hk2' r, lookup_isSome_iff_mem])
    rw [hpermk.length_eq, List.length_map]
  refine ⟨?_, ?_, ?_, ?_⟩
  · have hz : (keys2.filterMap (fun r =>
        oneWayKey (hashOn hf src)
          (hashOn hf (executeOneWayFs src tgt
            (oneWayDiffOfDrives pid keys1 src tgt hf).entries)) r
          ((collectInfos src).lookup r)
          ((collectInfos (executeOneWayFs src tgt
            (oneWayDiffOfDrives pid keys1 src tgt hf).entries)).lookup
              r))).countP
        (fun p => decide (p.1.action = .Add)) = 0 := by
      apply List.countP_eq_zero.mpr
      intro p hp
      simp [hall p hp]
    show (computeOneWayDiff pid2 keys2 (collectInfos src)
      (collectInfos (executeOneWayFs src tgt
        (oneWayDiffOfDrives pid keys1 src tgt hf).entries))
      (hashOn hf src)
      (hashOn hf (executeOneWayFs src tgt
        (oneWayDiffOfDrives pid keys1 src tgt hf).entries))).total_add = 0
    rw [computeOneWayDiff_total_add]
    exact hz
  · have hz : (keys2.filterMap (fun r =>
        oneWayKey (hashOn hf src)
          (hashOn hf (executeOneWayFs src tgt
            (oneWayDiffOfDrives pid keys1 src tgt hf).entries)) r
          ((collectInfos src).lookup r)
          ((collectInfos (executeOneWayFs src tgt
            (oneWayDiffOfDrives pid keys1 src tgt hf).entries)).lookup
              r))).countP
        (fun p => decide (p.1.action = .Remove)) = 0 := by
      apply List.countP_eq_zero.mpr
      intro p hp
      simp [hall p hp]
    show (computeOneWayDiff pid2 keys2 (collectInfos src)
      (collectInfos (executeOneWayFs src tgt
        (oneWayDiffOfDrives pid keys1 src tgt hf).entries))
      (hashOn hf src)
      (hashOn hf (executeOneWayFs src tgt
        (oneWayDiffOfDrives pid keys1 src tgt hf).entries))).total_remove = 0
    rw [computeOneWayDiff_total_remove]
    exact hz
  · have hz : (keys2.filterMap (fun r =>
        oneWayKey (hashOn hf src)
          (hashOn hf (executeOneWayFs src tgt
            (oneWayDiffOfDrives pid keys1 src tgt hf).entries)) r
          ((collectInfos src).lookup r)
          ((collectInfos (executeOneWayFs src tgt
            (oneWayDiffOfDrives pid keys1 src tgt hf).entries)).lookup
              r))).countP
        (fun p => decide (p.1.action = .Update)) = 0 := by
      apply List.countP_eq_zero.mpr
      intro p hp
      simp [hall p hp]
    show (computeOneWayDiff pid2 keys2 (collectInfos src)
      (collectInfos (executeOneWayFs src tgt
        (oneWayDiffOfDrives pid keys1 src tgt hf).entries))
      (hashOn hf src)
      (hashOn hf (executeOneWayFs src tgt
        (oneWayDiffOfDrives pid keys1 src tgt hf).entries))).total_update = 0
    rw [computeOneWayDiff_total_update]
    exact hz
  · have hz : (keys2.filterMap (fun r =>
        oneWayKey (hashOn hf src)
          (hashOn hf (executeOneWayFs src tgt
            (oneWayDiffOfDrives pid keys1 src tgt hf).entries)) r
          ((collectInfos src).lookup r)
          ((collectInfos (executeOneWayFs src tgt
            (oneWayDiffOfDrives pid keys1 src tgt hf).entries)).lookup
              r))).countP
        (fun p => decide (p.1.action = .Unchanged)) = src.length := by
      rw [← hk2len, ← hlen]
      apply List.countP_eq_length.mpr
      intro p hp
      simp [hall p hp]
    show (computeOneWayDiff pid2 keys2 (collectInfos src)
      (collectInfos (executeOneWayFs src tgt
        (oneWayDiffOfDrives pid keys1 src tgt hf).entries))
      (hashOn hf src)
      (hashOn hf (executeOneWayFs src tgt
        (oneWayDiffOfDrives pid keys1 src tgt hf).entries))).total_unchanged = src.length
    rw [computeOneWayDiff_total_unchanged]
    exact hz
/-- Witness for `C8_one_way_convergence` on a one-file source drive. -/
theorem C8_one_way_convergence_witness :
    (oneWayDiffOfDrives "q" ["a.flac"] [("a.flac", ⟨"AAA", 10⟩)]
      (executeOneWayFs [("a.flac", ⟨"AAA", 10⟩)] []
        (oneWayDiffOfDrives "p" ["a.flac"] [("a.flac", ⟨"AAA", 10⟩)] []
          (fun s => s)).entries) (fun s => s)).total_add = 0 ∧
    (oneWayDiffOfDrives "q" ["a.flac"] [("a.flac", ⟨"AAA", 10⟩)]
      (executeOneWayFs [("a.flac", ⟨"AAA", 10⟩)] []
        (oneWayDiffOfDrives "p" ["a.flac"] [("a.flac", ⟨"AAA", 10⟩)] []
          (fun s => s)).entries) (fun s => s)).total_remove = 0 ∧
    (oneWayDiffOfDrives "q" ["a.flac"] [("a.flac", ⟨"AAA", 10⟩)]
      (executeOneWayFs [("a.flac", ⟨"AAA", 10⟩)] []
        (oneWayDiffOfDrives "p" ["a.flac"] [("a.flac", ⟨"AAA", 10⟩)] []
          (fun s => s)).entries) (fun s => s)).total_update = 0 ∧
    (oneWayDiffOfDrives "q" ["a.flac"] [("a.flac", ⟨"AAA", 10⟩)]
      (executeOneWayFs [("a.flac", ⟨"AAA", 10⟩)] []
        (oneWayDiffOfDrives "p" ["a.flac"] [("a.flac", ⟨"AAA", 10⟩)] []
          (fun s => s)).entries) (fun s => s)).total_unchanged = 1 := by
  have hk1 : ∀ r : String, r ∈ ["a.flac"] ↔
      ((([("a.flac", (⟨"AAA", 10⟩ : LiveFile))] : Drive).lookup r).isSome =
        true) ∨ ((([] : Drive).lookup r).isSome = true) := by
    intro r
    by_cases hr : r = "a.flac"
    · subst hr; simp [List.lookup]
    · have hb : (r == "a.flac") = false := by simpa using hr
      simp [List.lookup, hb, hr]
  have he : executeOneWayFs [("a.flac", ⟨"AAA", 10⟩)] []
      (oneWayDiffOfDrives "p" ["a.flac"] [("a.flac", ⟨"AAA", 10⟩)] []
        (fun s => s)).entries = [("a.flac", ⟨"AAA", 10⟩)] := by decide
  have hk2 : ∀ r : String, r ∈ ["a.flac"] ↔
      ((([("a.flac", (⟨"AAA", 10⟩ : LiveFile))] : Drive).lookup r).isSome =
        true) ∨
      (((executeOneWayFs [("a.flac", ⟨"AAA", 10⟩)] []
        (oneWayDiffOfDrives "p" ["a.flac"] [("a.flac", ⟨"AAA", 10⟩)] []
          (fun s => s)).entries).lookup r).isSome = true) := by
    intro r
    rw [he]
    by_cases hr : r = "a.flac"
    · subst hr; simp [List.lookup]
    · have hb : (r == "a.flac") = false := by simpa using hr
      simp [List.lookup, hb, hr]
  have h := C8_one_way_convergence "p" "q" [("a.flac", ⟨"AAA", 10⟩)] []
    (fun s => s) ["a.flac"] ["a.flac"] (by decide) hk1 (by decide)
    (by decide) hk2
  exact ⟨h.1, h.2.1, h.2.2.1, h.2.2.2⟩

end Orchestra
